import Mathlib

/-!
# MatrizLed: a shallow embedding of `src/MatrizLed/MatrizLed.cpp`

The driver keeps the on/off state of a chain of 8x8 LED modules (MAX7219 /
MAX7221) and pushes every change over a three-line serial bus.

Conventions of the embedding

* a `byte` is a `Nat`, reduced `% 256` wherever the source stores into a byte;
* an `int` is an `Int` (no operation of the modelled functions leaves the
  16-bit range for a chain of at most 8 modules and texts below 4096 characters);
* the member arrays `status[64]` and `spidata[16]` are maps from the C index to
  the byte stored there; the 8-byte glyph buffers (`codigo`, `copia`,
  `temporal`) are lists;
* the digital lines, the blocking delay, `dtostrf` and the glyph tables are
  outside the source file: line activity is recorded in a trace of events,
  the tables and `dtostrf` are parameters (`Entorno`);
* a call whose behaviour is undefined in the source (`escribirCifra` writing
  past its local buffer) has no result: the function returns an `Option`.
-/

namespace MatrizLed

/-! ## Arduino helpers used by the source -/

/-- Conversion of an `int` to a `byte`. -/
def toByte (x : Int) : Nat := (x % 256).toNat

/-- Arduino `bitRead(value, bit)`: `((value) >> (bit)) & 0x01`. -/
def bitRead (value bit : Nat) : Nat := (value >>> bit) &&& 1

/-- Arduino `bitSet(value, bit)` on a byte: `value |= (1UL << bit)`. -/
def bitSet (value bit : Nat) : Nat := (value ||| (1 <<< bit)) % 256

/-- Arduino `bitClear(value, bit)` on a byte: `value &= ~(1UL << bit)`,
the complement being taken in 32 bits. -/
def bitClear (value bit : Nat) : Nat := (value &&& (0xFFFFFFFF ^^^ ((1 <<< bit) % 4294967296))) % 256

/-- Arduino `bitWrite(value, bit, bitvalue)`. -/
def bitWrite (value bit bitvalue : Nat) : Nat :=
  if bitvalue ≠ 0 then bitSet value bit else bitClear value bit

/-- Read of element `i` of an 8-byte buffer. -/
def leer (a : List Nat) (i : Nat) : Nat := a.getD i 0

/-- The opcodes of the MAX7221 and MAX7219. -/
def OP_DECODEMODE : Nat := 9
def OP_INTENSITY : Nat := 10
def OP_SCANLIMIT : Nat := 11
def OP_SHUTDOWN : Nat := 12
def OP_DISPLAYTEST : Nat := 15

/-! ## State -/

/-- One observable action on the collaborators (digital lines, delay). -/
inductive Evento where
  | pinModeOutput (pin : Int)
  | digitalWrite (pin : Int) (high : Bool)
  | shiftOut (dataPin clockPin : Int) (msbFirst : Bool) (val : Nat)
  | delay (ms : Nat)
  deriving DecidableEq, Repr

/-- One call of `spiTransfer`: the addressed module, the opcode byte and the data byte. -/
structure Escritura where
  addr : Int
  opcode : Nat
  data : Nat
  deriving DecidableEq, Repr

/-- The object state of `MatrizLed`, with the trace of line events and the
list of bus writes performed so far (oldest first). -/
structure Estado where
  SPI_MOSI : Int
  SPI_CLK : Int
  SPI_CS : Int
  maxDevices : Int
  modelo : Int
  status : Int → Nat
  spidata : Int → Nat
  traza : List Evento
  escrituras : List Escritura

/-- The glyph tables of the header and the number formatter of the platform. -/
structure Entorno where
  tablaCaracteresMayuscula : List Nat
  tablaCaracteresMinuscula : List Nat
  tablaNumeros : List Nat
  dtostrf : Int → Int → Nat → List Int

/-! ## Bus protocol -/

/-- `for (int i = 0; i < maxbytes; i++) spidata[i] = (byte)0;` -/
def limpiarSpidata (spidata : Int → Nat) (maxbytes : Int) : Int → Nat :=
  (List.range maxbytes.toNat).foldl (fun a (i : Nat) => Function.update a (i : Int) 0) spidata

/-- The contents of `spidata` once `spiTransfer` has filled it. -/
def spidataTras (s : Estado) (addr : Int) (opcode data : Nat) : Int → Nat :=
  let offset := addr * 2
  let maxbytes := s.maxDevices * 2
  let a0 := limpiarSpidata s.spidata maxbytes
  let a1 := Function.update a0 (offset + 1) (opcode % 256)
  Function.update a1 offset (data % 256)

/-- The bytes handed to `shiftOut`, in transmission order:
`for (int i = maxbytes; i > 0; i--) shiftOut(..., spidata[i - 1]);` -/
def trama (s : Estado) (addr : Int) (opcode data : Nat) : List Nat :=
  let maxbytes := s.maxDevices * 2
  ((List.range maxbytes.toNat).reverse.map (fun (k : Nat) => k + 1)).map
    (fun (i : Nat) => spidataTras s addr opcode data ((i : Int) - 1))

/-- `MatrizLed::spiTransfer`. -/
def spiTransfer (s : Estado) (addr : Int) (opcode data : Nat) : Estado :=
  { s with
    spidata := spidataTras s addr opcode data
    traza := s.traza ++ [Evento.digitalWrite s.SPI_CS false]
      ++ (trama s addr opcode data).map (Evento.shiftOut s.SPI_MOSI s.SPI_CLK true)
      ++ [Evento.digitalWrite s.SPI_CS true]
    escrituras := s.escrituras ++ [⟨addr, opcode % 256, data % 256⟩] }

/-- A state with the given chain length and mount model, everything else blank. -/
def enBlanco (n modelo : Int) : Estado :=
  { SPI_MOSI := 12, SPI_CLK := 11, SPI_CS := 10, maxDevices := n, modelo := modelo,
    status := fun _ => 0, spidata := fun _ => 0, traza := [], escrituras := [] }

/-! ## Chip operations and frame buffer -/

/-- `for (int address = 0; address < n; address++) cuerpo(address);` -/
def paraCada (n : Int) (cuerpo : Estado → Int → Estado) (s : Estado) : Estado :=
  (List.range n.toNat).foldl (fun st (a : Nat) => cuerpo st (a : Int)) s

/-- `MatrizLed::shutdown`. -/
def shutdown (s : Estado) (addr : Int) (b : Bool) : Estado :=
  if addr < 0 ∨ addr ≥ s.maxDevices then s
  else if b then spiTransfer s addr OP_SHUTDOWN 0
  else spiTransfer s addr OP_SHUTDOWN 1

/-- `MatrizLed::setScanLimit`. -/
def setScanLimit (s : Estado) (addr limit : Int) : Estado :=
  if addr < 0 ∨ addr ≥ s.maxDevices then s
  else if limit ≥ 0 ∧ limit < 8 then spiTransfer s addr OP_SCANLIMIT (toByte limit)
  else s

/-- `MatrizLed::setIntensity`. -/
def setIntensity (s : Estado) (addr intensity : Int) : Estado :=
  if addr < 0 ∨ addr ≥ s.maxDevices then s
  else if intensity ≥ 0 ∧ intensity < 16 then spiTransfer s addr OP_INTENSITY (toByte intensity)
  else s

/-- One iteration of the loop of `clearDisplay`. -/
def clearDisplayPaso (addr : Int) (st : Estado) (i : Nat) : Estado :=
  let offset := addr * 8
  let st1 := { st with status := Function.update st.status (offset + (i : Int)) 0 }
  spiTransfer st1 addr (toByte ((i : Int) + 1)) (st1.status (offset + (i : Int)))

/-- `MatrizLed::clearDisplay`. -/
def clearDisplay (s : Estado) (addr : Int) : Estado :=
  if addr < 0 ∨ addr ≥ s.maxDevices then s
  else (List.range 8).foldl (clearDisplayPaso addr) s

/-- `MatrizLed::setLed`. -/
def setLed (s : Estado) (addr row column : Int) (state : Bool) : Estado :=
  if addr < 0 ∨ addr ≥ s.maxDevices then s
  else if row < 0 ∨ row > 7 ∨ column < 0 ∨ column > 7 then s
  else
    let offset := addr * 8
    let val := (0x80 >>> column.toNat) % 256
    let nuevo :=
      if state then (s.status (offset + row) ||| val) % 256
      else (s.status (offset + row) &&& ((val ^^^ 0xFF) % 256)) % 256
    let s1 := { s with status := Function.update s.status (offset + row) nuevo }
    spiTransfer s1 addr (toByte (row + 1)) (s1.status (offset + row))

/-- `MatrizLed::setRow`. -/
def setRow (s : Estado) (addr row : Int) (value : Nat) : Estado :=
  if addr < 0 ∨ addr ≥ s.maxDevices then s
  else if row < 0 ∨ row > 7 then s
  else
    let offset := addr * 8
    let s1 := { s with status := Function.update s.status (offset + row) (value % 256) }
    spiTransfer s1 addr (toByte (row + 1)) (s1.status (offset + row))

/-- `MatrizLed::setColumn`. -/
def setColumn (s : Estado) (addr col : Int) (value : Nat) : Estado :=
  if addr < 0 ∨ addr ≥ s.maxDevices ∨ col < 0 ∨ col > 7 then s
  else (List.range 8).foldl
    (fun st (row : Nat) => setLed st addr (row : Int) col (bitRead (value % 256) row != 0)) s

/-- `MatrizLed::getDeviceCount`. -/
def getDeviceCount (s : Estado) : Int := s.maxDevices

/-- `MatrizLed::setModelo`. -/
def setModelo (s : Estado) (m : Int) : Estado := { s with modelo := m }

/-- `MatrizLed::borrar`. -/
def borrar (s : Estado) : Estado :=
  paraCada s.maxDevices (fun st address => clearDisplay st address) s

/-- `MatrizLed::setIntensidad`. -/
def setIntensidad (s : Estado) (intensidad : Int) : Estado :=
  paraCada (getDeviceCount s) (fun st address => setIntensity st address intensidad) s

/-- `MatrizLed::apagar`. -/
def apagar (s : Estado) : Estado :=
  paraCada (getDeviceCount s) (fun st address => shutdown st address true) s

/-- `MatrizLed::encender`. -/
def encender (s : Estado) : Estado :=
  paraCada (getDeviceCount s) (fun st address => shutdown st address false) s

/-- `for (int i = 0; i < 64; i++) status[i] = 0x00;` -/
def limpiarStatus (status : Int → Nat) : Int → Nat :=
  (List.range 64).foldl (fun a (i : Nat) => Function.update a (i : Int) 0) status

/-- The per-module part of `begin`. -/
def beginPaso (st : Estado) (i : Int) : Estado :=
  let st1 := spiTransfer st i OP_DISPLAYTEST 0
  let st2 := setScanLimit st1 i 7
  let st3 := spiTransfer st2 i OP_DECODEMODE 0
  clearDisplay st3 i

/-- `MatrizLed::begin`. -/
def begin (s : Estado) (dataPin clkPin csPin numDevices : Int) : Estado :=
  let numDevices := if numDevices ≤ 0 ∨ numDevices > 8 then 8 else numDevices
  let s1 : Estado :=
    { s with SPI_MOSI := dataPin, SPI_CLK := clkPin, SPI_CS := csPin, maxDevices := numDevices }
  let s2 : Estado :=
    { s1 with traza := s1.traza ++ [Evento.pinModeOutput s1.SPI_MOSI,
        Evento.pinModeOutput s1.SPI_CLK, Evento.pinModeOutput s1.SPI_CS,
        Evento.digitalWrite s1.SPI_CS true] }
  let s3 : Estado := { s2 with status := limpiarStatus s2.status }
  let s4 := paraCada s3.maxDevices beginPaso s3
  borrar (encender (setIntensidad (apagar s4) 6))

/-! ## Orientation transform -/

/-- `MatrizLed::rotar_antihorario_codigo`: the new contents of `original`. -/
def rotar_antihorario_codigo (original : List Nat) : List Nat :=
  let temporal := (List.range 8).foldl (fun t (i : Nat) =>
    [7, 6, 5, 4, 3, 2, 1, 0].foldl (fun t (b : Nat) =>
      t.set b (bitWrite (leer t b) (7 - i) (bitRead (leer original i) b))) t)
    [0, 0, 0, 0, 0, 0, 0, 0]
  temporal ++ original.drop 8

/-- `MatrizLed::rotar_horario_codigo`: the new contents of `original`. -/
def rotar_horario_codigo (original : List Nat) : List Nat :=
  let temporal := (List.range 8).foldl (fun t (i : Nat) =>
    [0, 1, 2, 3, 4, 5, 6, 7].foldl (fun t (b : Nat) =>
      t.set (7 - b) (bitWrite (leer t (7 - b)) i (bitRead (leer original i) b))) t)
    [0, 0, 0, 0, 0, 0, 0, 0]
  temporal ++ original.drop 8

/-- `MatrizLed::espejo_codigo`: the new contents of `original`. -/
def espejo_codigo (original : List Nat) : List Nat :=
  let temporal := (List.range 8).foldl (fun t (i : Nat) =>
    [0, 1, 2, 3, 4, 5, 6, 7].foldl (fun t (k : Nat) =>
      t.set (7 - k) (bitWrite (leer t (7 - k)) i (bitRead (leer original k) i))) t)
    [0, 0, 0, 0, 0, 0, 0, 0]
  temporal ++ original.drop 8

/-- `MatrizLed::rotarCodigo`: the new contents of `codigo` under mount model `modelo`. -/
def rotarCodigo (modelo : Int) (codigo : List Nat) : List Nat :=
  if modelo = 0 then rotar_antihorario_codigo codigo
  else if modelo = 1 then rotar_horario_codigo codigo
  else if modelo = 2 then espejo_codigo codigo
  else codigo

/-! ## Text engine -/

/-- `MatrizLed::obtenerSecuenciaTabla`. -/
def obtenerSecuenciaTabla (nombreTabla : List Nat) (posTabla : Int) : List Nat :=
  (List.range 8).map (fun (i : Nat) => (nombreTabla.getD ((i : Int) + posTabla).toNat 0) % 256)

/-- The local array `asterisco` of `obtenerBitsCaracter`. -/
def asterisco : List Nat := [0x00, 0x08, 0x2A, 0x1C, 0x77, 0x1C, 0x2A, 0x08]

/-- `MatrizLed::obtenerBitsCaracter`: the 8 bytes left in `codigo`. -/
def obtenerBitsCaracter (e : Entorno) (caracter : Int) : List Nat :=
  if caracter = 32 then (List.range 8).map (fun _ => 0)
  else if caracter ≥ 65 ∧ caracter ≤ 90 then
    obtenerSecuenciaTabla e.tablaCaracteresMayuscula ((caracter - 65) * 8)
  else if caracter ≥ 97 ∧ caracter ≤ 122 then
    obtenerSecuenciaTabla e.tablaCaracteresMinuscula ((caracter - 97) * 8)
  else if caracter ≥ 48 ∧ caracter ≤ 57 then
    obtenerSecuenciaTabla e.tablaNumeros ((caracter - 48) * 8)
  else asterisco

/-- The loop of `case 0` of `escribirBits`, over the remaining values of `i`. -/
def escribirBitsBucle0 (copia : List Nat) : List Nat → Int → Int → Estado → Estado
  | [], _, _, s => s
  | i :: resto, address, posDisplay, s =>
    if address > s.maxDevices - 1 then s
    else
      let s1 := setColumn s address posDisplay (leer copia i)
      if posDisplay = 0 then escribirBitsBucle0 copia resto (address + 1) 7 s1
      else escribirBitsBucle0 copia resto address (posDisplay - 1) s1

/-- The loop of `case 1` of `escribirBits`, over the remaining values of `i`. -/
def escribirBitsBucle1 (copia : List Nat) : List Nat → Int → Int → Estado → Estado
  | [], _, _, s => s
  | i :: resto, address, posDisplay, s =>
    if address > s.maxDevices - 1 then s
    else
      let s1 := setColumn s address posDisplay (leer copia i)
      if posDisplay = 7 then escribirBitsBucle1 copia resto (address + 1) 0 s1
      else escribirBitsBucle1 copia resto address (posDisplay + 1) s1

/-- `MatrizLed::escribirBits`; `/` and `%` of C truncate towards zero. -/
def escribirBits (s : Estado) (codigo : List Nat) (posicion : Int) : Estado :=
  let copia := rotarCodigo s.modelo (codigo.take 8)
  let address := posicion.tdiv 8
  if s.modelo = 0 then
    escribirBitsBucle0 copia [7, 6, 5, 4, 3, 2, 1, 0] address (7 - posicion.tmod 8) s
  else if s.modelo = 1 then
    escribirBitsBucle1 copia [0, 1, 2, 3, 4, 5, 6, 7] address (posicion.tmod 8) s
  else s

/-- `MatrizLed::escribirCaracter`. -/
def escribirCaracter (e : Entorno) (s : Estado) (caracter : Int) (posicion : Int) : Estado :=
  escribirBits s (obtenerBitsCaracter e caracter) posicion

/-- Character `i` of a C string whose characters before the terminator are `frase`. -/
def caracterEn (frase : List Int) (i : Nat) : Int := frase.getD i 0

/-- `MatrizLed::escribirFrase` (both overloads have the same body). -/
def escribirFrase (e : Entorno) (s : Estado) (frase : List Int) (posicion : Int) : Estado :=
  (List.range frase.length).foldl (fun st (i : Nat) =>
    escribirCaracter e st (caracterEn frase i) (((i : Int) * 8) + posicion)) s

/-- `MatrizLed::escribirFraseCompacta`. -/
def escribirFraseCompacta (e : Entorno) (s : Estado) (frase : List Int) (posicion : Int) : Estado :=
  let s1 := escribirCaracter e s (caracterEn frase 0) (posicion - 1)
  ((List.range (frase.length - 1)).map (fun (k : Nat) => k + 1)).foldl (fun st (i : Nat) =>
    escribirCaracter e st (caracterEn frase i) (((i : Int) * 8) - ((i : Int) * 2) + posicion)) s1

/-- `delay(pausa)`. -/
def delay (s : Estado) (pausa : Nat) : Estado :=
  { s with traza := s.traza ++ [Evento.delay pausa] }

/-- `MatrizLed::escribirFraseScroll`. -/
def escribirFraseScroll (e : Entorno) (s : Estado) (frase : List Int) (pausa : Nat) : Estado :=
  let ultFila := s.maxDevices * 8
  let nPasos : Int := (frase.length : Int) * 8
  (List.range (ultFila + nPasos).toNat).foldl (fun st (k : Nat) =>
    delay (escribirFrase e st frase (ultFila - (k : Int))) pausa) s

/-- `MatrizLed::escribirFraseCompactaScroll`. -/
def escribirFraseCompactaScroll (e : Entorno) (s : Estado) (frase : List Int) (pausa : Nat) :
    Estado :=
  let ultFila := s.maxDevices * 8
  let nPasos : Int := (frase.length : Int) * 8
  (List.range (ultFila + nPasos).toNat).foldl (fun st (k : Nat) =>
    delay (escribirFraseCompacta e st frase (ultFila - (k : Int))) pausa) s

/-- `MatrizLed::escribirCifra`. `dtostrf` writes the characters and their terminator into
the local buffer `char formateado[maxDevices + 1]`; when they do not fit, the write runs
past the buffer and the behaviour is undefined: there is no result. -/
def escribirCifra (e : Entorno) (s : Estado) (cifra posicion : Int) : Option Estado :=
  let formateado := e.dtostrf cifra s.maxDevices 0
  if (formateado.length : Int) + 1 ≤ s.maxDevices + 1 then
    some (escribirFrase e s formateado posicion)
  else none

/-! ## Observations on the frame buffer -/

/-- The LED at (`addr`, `row`, `column`): the bit of `status` that `setLed` addresses,
mask `B10000000 >> column` of byte `addr * 8 + row`. -/
def led (s : Estado) (addr row column : Int) : Bool :=
  (s.status (addr * 8 + row) &&& ((0x80 >>> column.toNat) % 256)) != 0

/-- Row `row` of module `addr`. -/
def fila (s : Estado) (addr row : Int) : Nat := s.status (addr * 8 + row)

/-- The byte `setLed` leaves in the addressed row, from the byte `x` it finds there. -/
def filaTrasLed (x : Nat) (column : Int) (state : Bool) : Nat :=
  if state then (x ||| ((0x80 >>> column.toNat) % 256)) % 256
  else (x &&& ((((0x80 >>> column.toNat) % 256) ^^^ 0xFF) % 256)) % 256

/-- A configured chain: 1 to 8 modules, and `status[0..63]` holds bytes. -/
def Configurado (s : Estado) : Prop :=
  1 ≤ s.maxDevices ∧ s.maxDevices ≤ 8 ∧ ∀ i : Int, 0 ≤ i → i < 64 → s.status i < 256

/-- Bit (`row`, `col`) of an 8-byte pattern: bit index `col` of byte `row`. -/
def bitDe (p : List Nat) (row col : Nat) : Bool := (leer p row).testBit col

/-- The orientation transform as the specification defines it, on bit matrices:
ClockwiseMount (mode 0) `output(row,col) = input(7-col,row)`, CounterClockwiseMount (mode 1)
`output(row,col) = input(col,7-row)`, MirroredMount (mode 2) `output(row,col) = input(7-row,col)`. -/
def transformReferencia (modo : Int) (input : Nat → Nat → Bool) (row col : Nat) : Bool :=
  if modo = 0 then input (7 - col) row
  else if modo = 1 then input col (7 - row)
  else if modo = 2 then input (7 - row) col
  else input row col

/-- An 8-byte pattern. -/
def EsCodigo (p : List Nat) : Prop := p.length = 8 ∧ ∀ x ∈ p, x < 256

/-- Logical column of physical column `c` of module `m`: module `L div 8`, physical column
`L mod 8` under model 1 and `7 - (L mod 8)` under model 0. -/
def columnaLogica (modelo m c : Int) : Int :=
  if modelo = 1 then m * 8 + c else m * 8 + (7 - c)

/-- An example environment: the three tables hold distinct bytes (the real tables are in the
header, outside the source file), and numbers are formatted to nothing. -/
def entornoEjemplo : Entorno :=
  { tablaCaracteresMayuscula := (List.range 208).map (fun i => (i * 7 + 3) % 256)
    tablaCaracteresMinuscula := (List.range 208).map (fun i => (i * 11 + 5) % 256)
    tablaNumeros := (List.range 80).map (fun i => (i * 13 + 1) % 256)
    dtostrf := fun _ _ _ => [] }

/-! ## Bus writes and public operations -/

/-- The data byte of the most recent bus write addressed to module `m` with opcode `op`. -/
def ultimaEscritura (ws : List Escritura) (m : Int) (op : Nat) : Option Nat :=
  (ws.reverse.find? (fun w => decide (w.addr = m ∧ w.opcode = op))).map (fun w => w.data)

/-- On the rows selected by `P`, `status` holds the data byte of the most recent bus write
to that row register (opcode `row + 1`). -/
def Coherente (P : Int → Int → Prop) (s : Estado) : Prop :=
  ∀ m r : Int, P m r → 0 ≤ m → m < s.maxDevices → 0 ≤ r → r ≤ 7 →
    ultimaEscritura s.escrituras m (r + 1).toNat = some (s.status (m * 8 + r))

/-- A state transformer that keeps the chain length and the coherence of every set of rows. -/
def Preserva (f : Estado → Estado) : Prop :=
  ∀ s : Estado, (f s).maxDevices = s.maxDevices
    ∧ ∀ P : Int → Int → Prop, Coherente P s → Coherente P (f s)

/-- The public operations of the class. -/
inductive Operacion where
  | begin (dataPin clkPin csPin numDevices : Int)
  | setModelo (m : Int)
  | borrar
  | setIntensidad (intensidad : Int)
  | apagar
  | encender
  | escribirFraseScroll (frase : List Int) (pausa : Nat)
  | escribirFraseCompactaScroll (frase : List Int) (pausa : Nat)
  | escribirCifra (cifra posicion : Int)
  | escribirFrase (frase : List Int) (posicion : Int)
  | escribirFraseCompacta (frase : List Int) (posicion : Int)
  | escribirCaracter (caracter posicion : Int)
  | escribirBits (codigo : List Nat) (posicion : Int)
  | shutdown (addr : Int) (b : Bool)
  | setScanLimit (addr limit : Int)
  | setIntensity (addr intensity : Int)
  | clearDisplay (addr : Int)
  | setLed (addr row column : Int) (state : Bool)
  | setRow (addr row : Int) (value : Nat)
  | setColumn (addr col : Int) (value : Nat)

/-- One public call on the object; no result where the behaviour of the call is undefined. -/
def ejecutar (e : Entorno) (s : Estado) : Operacion → Option Estado
  | .begin dataPin clkPin csPin numDevices => some (begin s dataPin clkPin csPin numDevices)
  | .setModelo m => some (setModelo s m)
  | .borrar => some (borrar s)
  | .setIntensidad intensidad => some (setIntensidad s intensidad)
  | .apagar => some (apagar s)
  | .encender => some (encender s)
  | .escribirFraseScroll frase pausa => some (escribirFraseScroll e s frase pausa)
  | .escribirFraseCompactaScroll frase pausa => some (escribirFraseCompactaScroll e s frase pausa)
  | .escribirCifra cifra posicion => escribirCifra e s cifra posicion
  | .escribirFrase frase posicion => some (escribirFrase e s frase posicion)
  | .escribirFraseCompacta frase posicion => some (escribirFraseCompacta e s frase posicion)
  | .escribirCaracter caracter posicion => some (escribirCaracter e s caracter posicion)
  | .escribirBits codigo posicion => some (escribirBits s codigo posicion)
  | .shutdown addr b => some (shutdown s addr b)
  | .setScanLimit addr limit => some (setScanLimit s addr limit)
  | .setIntensity addr intensity => some (setIntensity s addr intensity)
  | .clearDisplay addr => some (clearDisplay s addr)
  | .setLed addr row column state => some (setLed s addr row column state)
  | .setRow addr row value => some (setRow s addr row value)
  | .setColumn addr col value => some (setColumn s addr col value)

/-- A sequence of public calls, in order; no result as soon as one call has none. -/
def ejecutarTodas (e : Entorno) (s : Estado) : List Operacion → Option Estado
  | [] => some s
  | op :: ops =>
    match ejecutar e s op with
    | some s1 => ejecutarTodas e s1 ops
    | none => none

/-- The chain length after one public call on a chain of `n` modules: only `begin` sets it. -/
def longitudTras (n : Int) : Operacion → Int
  | .begin _ _ _ numDevices => if numDevices ≤ 0 ∨ numDevices > 8 then 8 else numDevices
  | _ => n

/-- Whether the call, on a chain of `n` modules, keeps within the buffer
`char formateado[maxDevices + 1]` of `escribirCifra`; every other call has no such buffer. -/
def cabe (e : Entorno) (n : Int) : Operacion → Bool
  | .escribirCifra cifra _ => decide (((e.dtostrf cifra n 0).length : Int) + 1 ≤ n + 1)
  | _ => true

/-- Whether every call of the sequence keeps within its buffer, from a chain of `n` modules. -/
def cifrasCaben (e : Entorno) : Int → List Operacion → Bool
  | _, [] => true
  | n, op :: ops => cabe e n op && cifrasCaben e (longitudTras n op) ops

/-- The decimal characters of an integer, with a leading `-` when it is negative. -/
def cifrasDe (x : Int) : List Int :=
  (if x < 0 then [45] else []) ++ (Nat.toDigits 10 x.natAbs).map (fun ch => (ch.toNat : Int))

/-- An example environment whose `dtostrf` formats integers with precision 0: the decimal
characters, padded with spaces on the left up to `width`, never truncated. -/
def entornoCifras : Entorno :=
  { entornoEjemplo with
    dtostrf := fun val width _ =>
      List.replicate (width.toNat - (cifrasDe val).length) 32 ++ cifrasDe val }

/-! ## Scroll: pauses and positions -/

/-- The pauses recorded in a trace, oldest first. -/
def pausasDe (t : List Evento) : List Nat :=
  t.filterMap (fun ev => match ev with
    | Evento.delay ms => some ms
    | _ => none)

/-- The pauses performed so far. -/
def pausas (s : Estado) : List Nat := pausasDe s.traza

/-- The integers from `desde` down to `hasta`, both included. -/
def descendente (desde hasta : Int) : List Int :=
  (List.range (desde - hasta + 1).toNat).map (fun (k : Nat) => desde - (k : Int))

/-- The positions the specification lists for a scroll of a text of `L` characters on a
chain of `n` modules: `8n, 8n-1, ..., -(8L)+1`, in that order. -/
def posicionesScroll (n : Int) (L : Nat) : List Int :=
  descendente (8 * n) (-(8 * (L : Int)) + 1)

/-- A state transformer that performs no pause. -/
def SinPausa (f : Estado → Estado) : Prop := ∀ s : Estado, pausas (f s) = pausas s

/-! ## Glyph lookup: the reference definition -/

/-- The characters the glyph lookup recognises: space, `A`-`Z`, `a`-`z`, `0`-`9`. -/
def Reconocido (c : Int) : Prop :=
  c = 32 ∨ (65 ≤ c ∧ c ≤ 90) ∨ (97 ≤ c ∧ c ≤ 122) ∨ (48 ≤ c ∧ c ≤ 57)

/-- Glyph lookup as the specification defines it: space gives the all-zero pattern, a
character of a range gives the 8 consecutive bytes of the table of that range from index
`(code - rangeStart) * 8`, any other character gives the fixed fallback pattern. -/
def lookupReferencia (e : Entorno) (c : Int) : List Nat :=
  if c = 32 then [0, 0, 0, 0, 0, 0, 0, 0]
  else if 65 ≤ c ∧ c ≤ 90 then (e.tablaCaracteresMayuscula.drop ((c - 65) * 8).toNat).take 8
  else if 97 ≤ c ∧ c ≤ 122 then (e.tablaCaracteresMinuscula.drop ((c - 97) * 8).toNat).take 8
  else if 48 ≤ c ∧ c ≤ 57 then (e.tablaNumeros.drop ((c - 48) * 8).toNat).take 8
  else [0x00, 0x08, 0x2A, 0x1C, 0x77, 0x1C, 0x2A, 0x08]

/-- The tables of the header hold 8 bytes for each character of their range:
26 letters, 26 letters, 10 digits. -/
def TablasCompletas (e : Entorno) : Prop :=
  (208 ≤ e.tablaCaracteresMayuscula.length ∧ ∀ x ∈ e.tablaCaracteresMayuscula, x < 256)
    ∧ (208 ≤ e.tablaCaracteresMinuscula.length ∧ ∀ x ∈ e.tablaCaracteresMinuscula, x < 256)
    ∧ (80 ≤ e.tablaNumeros.length ∧ ∀ x ∈ e.tablaNumeros, x < 256)

/-! ## Start-up: the expected bus writes -/

/-- The 8 row clears of module `m`: `(m,1,0)` to `(m,8,0)`. -/
def borradoFilas (m : Int) : List Escritura :=
  (List.range 8).map (fun (r : Nat) => (⟨m, r + 1, 0⟩ : Escritura))

/-- The writes `g 0`, `g 1`, ..., `g (n-1)` one after the other. -/
def porModulo (n : Nat) (g : Int → List Escritura) : List Escritura :=
  (List.range n).foldl (fun acc (i : Nat) => acc ++ g (i : Int)) []

/-- The start-up sequence the specification lists for a chain of `n` modules. -/
def secuenciaInicio (n : Nat) : List Escritura :=
  porModulo n (fun i => [⟨i, 15, 0⟩, ⟨i, 11, 7⟩, ⟨i, 9, 0⟩] ++ borradoFilas i)
    ++ porModulo n (fun a => [⟨a, 12, 0⟩])
    ++ porModulo n (fun a => [⟨a, 10, 6⟩])
    ++ porModulo n (fun a => [⟨a, 12, 1⟩])
    ++ porModulo n borradoFilas

/-- The chain has `n` modules and `status[0..63]` is all zero. -/
def EnCero (n : Int) (s : Estado) : Prop :=
  s.maxDevices = n ∧ ∀ i : Int, 0 ≤ i → i < 64 → s.status i = 0

/-! ## Text placement: the calls made -/

/-- The calls `escribirCaracter(caracter, posicion)` that `escribirFraseCompacta` makes, in
order: `frase[0]` at `posicion-1`, then `frase[i]` at `(i * 8) - (i * 2) + posicion` for
`i = 1 .. strlen(frase) - 1`. -/
def llamadasCompacta (frase : List Int) (posicion : Int) : List (Int × Int) :=
  (caracterEn frase 0, posicion - 1)
    :: ((List.range (frase.length - 1)).map (fun (k : Nat) => k + 1)).map
        (fun (i : Nat) => (caracterEn frase i, ((i : Int) * 8) - ((i : Int) * 2) + posicion))

/-- The calls `escribirCaracter(caracter, posicion)` that `escribirFrase` makes, in order. -/
def llamadasFrase (frase : List Int) (posicion : Int) : List (Int × Int) :=
  (List.range frase.length).map
    (fun (i : Nat) => (caracterEn frase i, ((i : Int) * 8) + posicion))

/-- The position of call number `i` of a list of calls. -/
def posicionDe (llamadas : List (Int × Int)) (i : Nat) : Int := (llamadas.getD i (0, 0)).2

/-! ## Bus protocol: the transmitted frame -/

theorem limpiarSpidata_apply (a : Int → Nat) (mb : Int) (i : Int) :
    limpiarSpidata a mb i = if 0 ≤ i ∧ i < mb then 0 else a i := by
  unfold limpiarSpidata
  have key : ∀ m : Nat, (List.range m).foldl (fun a (i : Nat) => Function.update a (i : Int) 0) a i
      = if 0 ≤ i ∧ i < (m : Int) then 0 else a i := by
    intro m
    induction m with
    | zero =>
      rw [if_neg (by omega)]
      rfl
    | succ m ih =>
      rw [List.range_succ, List.foldl_append]
      simp only [List.foldl_cons, List.foldl_nil]
      by_cases h : i = (m : Int)
      · subst h
        rw [Function.update_same, if_pos (by omega)]
      · rw [Function.update_noteq h, ih]
        by_cases h2 : 0 ≤ i ∧ i < (m : Int)
        · rw [if_pos h2, if_pos (by omega)]
        · rw [if_neg h2, if_neg (by omega)]
  rw [key]
  by_cases h2 : 0 ≤ i ∧ i < mb
  · rw [if_pos h2, if_pos (by omega)]
  · rw [if_neg h2, if_neg (by omega)]

theorem trama_length (s : Estado) (addr : Int) (opcode data : Nat) :
    (trama s addr opcode data).length = (s.maxDevices * 2).toNat := by
  simp [trama]

theorem trama_getD (s : Estado) (addr : Int) (opcode data : Nat) (j : Nat)
    (hj : j < (s.maxDevices * 2).toNat) :
    (trama s addr opcode data).getD j 0
      = spidataTras s addr opcode data (s.maxDevices * 2 - 1 - (j : Int)) := by
  have hlen := trama_length s addr opcode data
  rw [List.getD_eq_getElem _ _ (by omega)]
  simp only [trama, List.getElem_map, List.getElem_reverse, List.getElem_range, List.length_range]
  congr 1
  omega

theorem spidataTras_apply (s : Estado) (addr : Int) (opcode data : Nat) (i : Int) :
    spidataTras s addr opcode data i
      = if i = addr * 2 then data % 256
        else if i = addr * 2 + 1 then opcode % 256
        else if 0 ≤ i ∧ i < s.maxDevices * 2 then 0 else s.spidata i := by
  unfold spidataTras
  by_cases h1 : i = addr * 2
  · subst h1
    rw [Function.update_same, if_pos rfl]
  · rw [Function.update_noteq h1, if_neg h1]
    by_cases h2 : i = addr * 2 + 1
    · subst h2
      rw [Function.update_same, if_pos rfl]
    · rw [Function.update_noteq h2, if_neg h2, limpiarSpidata_apply]

/-- C1 (amended): for a chain of n modules (1 ≤ n ≤ 8), a module index 0 ≤ k < n and
opcode and value bytes, `spiTransfer k opcode value` lowers the latch, shifts out a frame of
exactly 2n bytes and raises the latch; the byte at transmitted position 2(n-1-k) is the
opcode, the byte at position 2(n-1-k)+1 is the value, and every other byte is 0. -/
theorem spiTransfer_trama (s : Estado) (k : Int) (opcode value : Nat)
    (hn : 1 ≤ s.maxDevices ∧ s.maxDevices ≤ 8) (hk : 0 ≤ k ∧ k < s.maxDevices)
    (ho : opcode < 256) (hv : value < 256) :
    (spiTransfer s k opcode value).traza
        = s.traza ++ [Evento.digitalWrite s.SPI_CS false]
          ++ (trama s k opcode value).map (Evento.shiftOut s.SPI_MOSI s.SPI_CLK true)
          ++ [Evento.digitalWrite s.SPI_CS true]
      ∧ ((trama s k opcode value).length : Int) = 2 * s.maxDevices
      ∧ ∀ j : Nat, (j : Int) < 2 * s.maxDevices →
          (trama s k opcode value).getD j 0
            = if (j : Int) = 2 * (s.maxDevices - 1 - k) then opcode
              else if (j : Int) = 2 * (s.maxDevices - 1 - k) + 1 then value
              else 0 := by
  have _ := hk
  refine ⟨rfl, ?_, ?_⟩
  · rw [trama_length]
    omega
  · intro j hj
    rw [trama_getD s k opcode value j (by omega), spidataTras_apply]
    by_cases h1 : (j : Int) = 2 * (s.maxDevices - 1 - k)
    · rw [if_neg (by omega), if_pos (by omega), if_pos h1]
      exact Nat.mod_eq_of_lt ho
    · rw [if_neg h1]
      by_cases h2 : (j : Int) = 2 * (s.maxDevices - 1 - k) + 1
      · rw [if_pos (by omega), if_pos h2]
        exact Nat.mod_eq_of_lt hv
      · rw [if_neg (by omega), if_neg (by omega), if_pos (by omega), if_neg h2]

/-- Witness of C1 (amended): chain of 3, module 1, opcode 10, value 6. -/
theorem spiTransfer_trama_witness :
    (1 ≤ (enBlanco 3 0).maxDevices ∧ (enBlanco 3 0).maxDevices ≤ 8)
      ∧ ((spiTransfer (enBlanco 3 0) 1 10 6).traza
        = (enBlanco 3 0).traza ++ [Evento.digitalWrite (enBlanco 3 0).SPI_CS false]
          ++ (trama (enBlanco 3 0) 1 10 6).map
              (Evento.shiftOut (enBlanco 3 0).SPI_MOSI (enBlanco 3 0).SPI_CLK true)
          ++ [Evento.digitalWrite (enBlanco 3 0).SPI_CS true]
      ∧ ((trama (enBlanco 3 0) 1 10 6).length : Int) = 2 * (enBlanco 3 0).maxDevices
      ∧ ∀ j : Nat, (j : Int) < 2 * (enBlanco 3 0).maxDevices →
          (trama (enBlanco 3 0) 1 10 6).getD j 0
            = if (j : Int) = 2 * ((enBlanco 3 0).maxDevices - 1 - 1) then 10
              else if (j : Int) = 2 * ((enBlanco 3 0).maxDevices - 1 - 1) + 1 then 6
              else 0) :=
  ⟨by decide, spiTransfer_trama (enBlanco 3 0) 1 10 6 (by decide) (by decide) (by decide)
    (by decide)⟩

/-- C1 as stated fails: for n=3, k=1, opcode=10, value=6 the bytes shifted out are
[0,0, 10,6, 0,0] (opcode first, then value), not [0,0, 6,10, 0,0]. -/
theorem spiTransfer_trama_contraejemplo :
    (spiTransfer (enBlanco 3 0) 1 10 6).traza
        = [Evento.digitalWrite 10 false, Evento.shiftOut 12 11 true 0,
           Evento.shiftOut 12 11 true 0, Evento.shiftOut 12 11 true 10,
           Evento.shiftOut 12 11 true 6, Evento.shiftOut 12 11 true 0,
           Evento.shiftOut 12 11 true 0, Evento.digitalWrite 10 true]
      ∧ trama (enBlanco 3 0) 1 10 6 = [0, 0, 10, 6, 0, 0]
      ∧ ¬ (trama (enBlanco 3 0) 1 10 6 = [0, 0, 6, 10, 0, 0]) := by
  decide

/-! ## Frame buffer -/

@[simp] theorem spiTransfer_status (s : Estado) (a : Int) (o d : Nat) :
    (spiTransfer s a o d).status = s.status := rfl

@[simp] theorem spiTransfer_maxDevices (s : Estado) (a : Int) (o d : Nat) :
    (spiTransfer s a o d).maxDevices = s.maxDevices := rfl

@[simp] theorem spiTransfer_modelo (s : Estado) (a : Int) (o d : Nat) :
    (spiTransfer s a o d).modelo = s.modelo := rfl

@[simp] theorem spiTransfer_escrituras (s : Estado) (a : Int) (o d : Nat) :
    (spiTransfer s a o d).escrituras = s.escrituras ++ [⟨a, o % 256, d % 256⟩] := rfl

theorem setLed_maxDevices (s : Estado) (m r c : Int) (st : Bool) :
    (setLed s m r c st).maxDevices = s.maxDevices := by
  unfold setLed
  split_ifs <;> rfl

theorem setLed_modelo (s : Estado) (m r c : Int) (st : Bool) :
    (setLed s m r c st).modelo = s.modelo := by
  unfold setLed
  split_ifs <;> rfl

theorem setLed_status (s : Estado) (m r c : Int) (st : Bool)
    (hm : 0 ≤ m ∧ m < s.maxDevices) (hr : 0 ≤ r ∧ r ≤ 7) (hc : 0 ≤ c ∧ c ≤ 7) :
    (setLed s m r c st).status
      = Function.update s.status (m * 8 + r) (filaTrasLed (s.status (m * 8 + r)) c st) := by
  unfold setLed filaTrasLed
  rw [if_neg (by omega), if_neg (by omega)]
  cases st <;> simp

theorem setLed_fuera (s : Estado) (m r c : Int) (st : Bool)
    (h : m < 0 ∨ m ≥ s.maxDevices ∨ r < 0 ∨ r > 7 ∨ c < 0 ∨ c > 7) :
    setLed s m r c st = s := by
  unfold setLed
  by_cases h1 : m < 0 ∨ m ≥ s.maxDevices
  · rw [if_pos h1]
  · rw [if_neg h1, if_pos (by omega)]

set_option maxRecDepth 100000 in
theorem byte_on_off : ∀ k < 8, ∀ x < 256, x &&& ((0x80 >>> k) % 256) = 0 →
    ((x ||| ((0x80 >>> k) % 256)) % 256 &&& ((((0x80 >>> k) % 256) ^^^ 0xFF) % 256)) % 256 = x := by
  decide

theorem filaTrasLed_on_off (x : Nat) (c : Int) (hx : x < 256) (hc : 0 ≤ c ∧ c ≤ 7)
    (hoff : (x &&& ((0x80 >>> c.toNat) % 256)) = 0) :
    filaTrasLed (filaTrasLed x c true) c false = x := by
  unfold filaTrasLed
  simp only [if_true, Bool.false_eq_true, if_false]
  exact byte_on_off c.toNat (by omega) x hx hoff

theorem led_eq_false_iff (s : Estado) (m r c : Int) :
    led s m r c = false ↔ s.status (m * 8 + r) &&& ((0x80 >>> c.toNat) % 256) = 0 := by
  unfold led
  simp

theorem enBlanco_configurado (n modelo : Int) (h1 : 1 ≤ n) (h8 : n ≤ 8) :
    Configurado (enBlanco n modelo) :=
  ⟨h1, h8, fun _ _ _ => by simp [enBlanco]⟩

/-- C3 (amended): for every configured chain, every frame-buffer state and every valid
(m,r,c) whose LED is off, `setLed(m,r,c,true)` followed by `setLed(m,r,c,false)` leaves
Row r of module m equal to the value it had before the two calls. -/
theorem setLed_on_off (s : Estado) (m r c : Int) (hs : Configurado s)
    (hm : 0 ≤ m ∧ m < s.maxDevices) (hr : 0 ≤ r ∧ r ≤ 7) (hc : 0 ≤ c ∧ c ≤ 7)
    (hoff : led s m r c = false) :
    fila (setLed (setLed s m r c true) m r c false) m r = fila s m r := by
  have hm' : 0 ≤ m ∧ m < (setLed s m r c true).maxDevices := by
    rw [setLed_maxDevices]; exact hm
  unfold fila
  rw [setLed_status _ m r c false hm' hr hc, Function.update_same,
    setLed_status s m r c true hm hr hc, Function.update_same]
  have h8 := hs.2.1
  exact filaTrasLed_on_off _ c (hs.2.2 _ (by omega) (by omega)) hc
    ((led_eq_false_iff s m r c).1 hoff)

/-- Witness of C3 (amended): module 0, row 2, column 5 of a blank chain of one module. -/
theorem setLed_on_off_witness :
    Configurado (enBlanco 1 0) ∧ led (enBlanco 1 0) 0 2 5 = false
      ∧ fila (setLed (setLed (enBlanco 1 0) 0 2 5 true) 0 2 5 false) 0 2
          = fila (enBlanco 1 0) 0 2 :=
  ⟨enBlanco_configurado 1 0 (by decide) (by decide), by decide,
    setLed_on_off (enBlanco 1 0) 0 2 5 (enBlanco_configurado 1 0 (by decide) (by decide))
      (by decide) (by decide) (by decide) (by decide)⟩

/-- C3 as stated fails when the LED is already on: after `begin` with one module and
`setLed(0,0,0,true)`, Row 0 of module 0 is 0x80; `setLed(0,0,0,true)` followed by
`setLed(0,0,0,false)` leaves it 0, not 0x80. -/
theorem setLed_on_off_contraejemplo :
    (setLed (begin (enBlanco 0 0) 12 11 10 1) 0 0 0 true).maxDevices = 1
      ∧ fila (setLed (begin (enBlanco 0 0) 12 11 10 1) 0 0 0 true) 0 0 = 128
      ∧ fila (setLed (setLed (setLed (begin (enBlanco 0 0) 12 11 10 1) 0 0 0 true)
          0 0 0 true) 0 0 0 false) 0 0 = 0
      ∧ ¬ (fila (setLed (setLed (setLed (begin (enBlanco 0 0) 12 11 10 1) 0 0 0 true)
          0 0 0 true) 0 0 0 false) 0 0
          = fila (setLed (begin (enBlanco 0 0) 12 11 10 1) 0 0 0 true) 0 0) := by
  decide

theorem setRow_fuera (s : Estado) (m r : Int) (v : Nat)
    (h : m < 0 ∨ m ≥ s.maxDevices ∨ r < 0 ∨ r > 7) : setRow s m r v = s := by
  unfold setRow
  by_cases h1 : m < 0 ∨ m ≥ s.maxDevices
  · rw [if_pos h1]
  · rw [if_neg h1, if_pos (by omega)]

theorem setColumn_fuera (s : Estado) (m col : Int) (v : Nat)
    (h : m < 0 ∨ m ≥ s.maxDevices ∨ col < 0 ∨ col > 7) : setColumn s m col v = s := by
  unfold setColumn
  rw [if_pos h]

theorem clearDisplay_fuera (s : Estado) (m : Int) (h : m < 0 ∨ m ≥ s.maxDevices) :
    clearDisplay s m = s := by
  unfold clearDisplay
  rw [if_pos h]

/-- C4: each frame-buffer operation called with an out-of-range argument returns the state
it was given: `setLed` with m outside [0,moduleCount) or r or c outside [0,7], `setRow` with
m or r out of range, `setColumn` with m or col out of range and `clearDisplay` with m out of
range change no byte of the frame buffer and add nothing to the bus writes or line events. -/
theorem fuera_de_rango_sin_efecto (s : Estado) :
    (∀ (m r c : Int) (st : Bool),
        (m < 0 ∨ m ≥ s.maxDevices ∨ r < 0 ∨ r > 7 ∨ c < 0 ∨ c > 7) →
          (setLed s m r c st).status = s.status
            ∧ (setLed s m r c st).escrituras = s.escrituras
            ∧ (setLed s m r c st).traza = s.traza ∧ setLed s m r c st = s)
      ∧ (∀ (m r : Int) (v : Nat), (m < 0 ∨ m ≥ s.maxDevices ∨ r < 0 ∨ r > 7) →
          (setRow s m r v).status = s.status
            ∧ (setRow s m r v).escrituras = s.escrituras
            ∧ (setRow s m r v).traza = s.traza ∧ setRow s m r v = s)
      ∧ (∀ (m col : Int) (v : Nat), (m < 0 ∨ m ≥ s.maxDevices ∨ col < 0 ∨ col > 7) →
          (setColumn s m col v).status = s.status
            ∧ (setColumn s m col v).escrituras = s.escrituras
            ∧ (setColumn s m col v).traza = s.traza ∧ setColumn s m col v = s)
      ∧ (∀ m : Int, (m < 0 ∨ m ≥ s.maxDevices) →
          (clearDisplay s m).status = s.status
            ∧ (clearDisplay s m).escrituras = s.escrituras
            ∧ (clearDisplay s m).traza = s.traza ∧ clearDisplay s m = s) := by
  refine ⟨fun m r c st h => ?_, fun m r v h => ?_, fun m col v h => ?_, fun m h => ?_⟩
  · rw [setLed_fuera s m r c st h]; exact ⟨rfl, rfl, rfl, rfl⟩
  · rw [setRow_fuera s m r v h]; exact ⟨rfl, rfl, rfl, rfl⟩
  · rw [setColumn_fuera s m col v h]; exact ⟨rfl, rfl, rfl, rfl⟩
  · rw [clearDisplay_fuera s m h]; exact ⟨rfl, rfl, rfl, rfl⟩

/-- Witness of C4: a chain of two modules; module 2, row 8, column -1 and module -1. -/
theorem fuera_de_rango_sin_efecto_witness :
    (setLed (enBlanco 2 0) 2 0 0 true).escrituras = (enBlanco 2 0).escrituras
      ∧ (setRow (enBlanco 2 0) 0 8 255).escrituras = (enBlanco 2 0).escrituras
      ∧ (setColumn (enBlanco 2 0) 1 (-1) 255).escrituras = (enBlanco 2 0).escrituras
      ∧ (clearDisplay (enBlanco 2 0) (-1)).escrituras = (enBlanco 2 0).escrituras :=
  ⟨((fuera_de_rango_sin_efecto (enBlanco 2 0)).1 2 0 0 true (by decide)).2.1,
   ((fuera_de_rango_sin_efecto (enBlanco 2 0)).2.1 0 8 255 (by decide)).2.1,
   ((fuera_de_rango_sin_efecto (enBlanco 2 0)).2.2.1 1 (-1) 255 (by decide)).2.1,
   ((fuera_de_rango_sin_efecto (enBlanco 2 0)).2.2.2 (-1) (by decide)).2.1⟩

/-! ## Columns -/

theorem mod256_testBit (x i : Nat) : (x % 256).testBit i = (decide (i < 8) && x.testBit i) := by
  have : (256 : Nat) = 2 ^ 8 := by norm_num
  rw [this, Nat.testBit_mod_two_pow]

theorem testBit_255 (i : Nat) : (255 : Nat).testBit i = decide (i < 8) := by
  have : (255 : Nat) = 2 ^ 8 - 1 := by norm_num
  rw [this, Nat.testBit_two_pow_sub_one]

theorem bitRead_ne_zero (x n : Nat) : (bitRead x n != 0) = x.testBit n := by
  unfold bitRead Nat.testBit
  rw [Nat.and_comm]

theorem mascara_eq : ∀ k < 8, (0x80 >>> k) % 256 = 2 ^ (7 - k) := by
  decide

theorem and_two_pow_ne_zero (x j : Nat) : (x &&& 2 ^ j != 0) = x.testBit j := by
  rw [Nat.and_two_pow]
  cases x.testBit j <;> simp

theorem led_eq_testBit (s : Estado) (m r c : Int) (hc : 0 ≤ c ∧ c ≤ 7) :
    led s m r c = (s.status (m * 8 + r)).testBit (7 - c.toNat) := by
  unfold led
  rw [mascara_eq c.toNat (by omega), and_two_pow_ne_zero]

theorem filaTrasLed_testBit (x : Nat) (col : Int) (st : Bool) (hcol : 0 ≤ col ∧ col ≤ 7)
    (i : Nat) :
    (filaTrasLed x col st).testBit i
      = (decide (i < 8) && if i = 7 - col.toNat then st else x.testBit i) := by
  unfold filaTrasLed
  rw [mascara_eq col.toNat (by omega)]
  by_cases hi : i < 8
  · by_cases h : i = 7 - col.toNat
    · subst h
      cases st <;>
        simp [mod256_testBit, Nat.testBit_and, Nat.testBit_or, Nat.testBit_xor,
          Nat.testBit_two_pow, testBit_255, hi]
    · have h' : ¬ (7 - col.toNat = i) := fun e => h e.symm
      cases st <;>
        simp [mod256_testBit, Nat.testBit_and, Nat.testBit_or, Nat.testBit_xor,
          Nat.testBit_two_pow, testBit_255, hi, h, h']
  · cases st <;> simp [mod256_testBit, hi]

theorem setLed_fold_status (m col : Int) (f : Nat → Bool) (hcol : 0 ≤ col ∧ col ≤ 7) :
    ∀ (l : List Nat) (s : Estado), (0 ≤ m ∧ m < s.maxDevices) → (∀ r ∈ l, r < 8) → l.Nodup →
      (l.foldl (fun st (row : Nat) => setLed st m (row : Int) col (f row)) s).maxDevices
          = s.maxDevices
        ∧ (l.foldl (fun st (row : Nat) => setLed st m (row : Int) col (f row)) s).modelo
          = s.modelo
        ∧ ∀ i : Int,
          (l.foldl (fun st (row : Nat) => setLed st m (row : Int) col (f row)) s).status i
            = if (i - m * 8).toNat ∈ l ∧ m * 8 ≤ i then
                filaTrasLed (s.status i) col (f (i - m * 8).toNat)
              else s.status i := by
  intro l
  induction l with
  | nil => intro s _ _ _; simp
  | cons a l ih =>
    intro s hm hl hnd
    rw [List.foldl_cons]
    have ha : a < 8 := hl a (List.mem_cons_self a l)
    have hm' : 0 ≤ m ∧ m < (setLed s m (a : Int) col (f a)).maxDevices := by
      rw [setLed_maxDevices]; exact hm
    obtain ⟨h1, h2, h3⟩ := ih (setLed s m (a : Int) col (f a)) hm'
      (fun r hr => hl r (List.mem_cons_of_mem a hr)) (List.nodup_cons.1 hnd).2
    refine ⟨by rw [h1, setLed_maxDevices], by rw [h2, setLed_modelo], fun i => ?_⟩
    rw [h3 i, setLed_status s m (a : Int) col (f a) hm (by omega) hcol]
    have hnot : a ∉ l := (List.nodup_cons.1 hnd).1
    by_cases hi : i = m * 8 + (a : Int)
    · have hto : (i - m * 8).toNat = a := by omega
      rw [hi] at hto ⊢
      rw [Function.update_same, hto, if_neg (fun h => hnot h.1),
        if_pos ⟨List.mem_cons_self a l, by omega⟩]
    · rw [Function.update_noteq hi]
      have hne : m * 8 ≤ i → (i - m * 8).toNat ≠ a := by omega
      by_cases hc : (i - m * 8).toNat ∈ l ∧ m * 8 ≤ i
      · rw [if_pos hc, if_pos ⟨List.mem_cons_of_mem a hc.1, hc.2⟩]
      · rw [if_neg hc, if_neg]
        rintro ⟨hmem, hle⟩
        rcases List.mem_cons.1 hmem with h | h
        · exact hne hle h
        · exact hc ⟨h, hle⟩

theorem setColumn_maxDevices (s : Estado) (m col : Int) (v : Nat) :
    (setColumn s m col v).maxDevices = s.maxDevices := by
  unfold setColumn
  by_cases h : m < 0 ∨ m ≥ s.maxDevices ∨ col < 0 ∨ col > 7
  · rw [if_pos h]
  · rw [if_neg h]
    exact (setLed_fold_status m col _ (by omega) (List.range 8) s (by omega)
      (fun r hr => List.mem_range.1 hr) (List.nodup_range 8)).1

theorem setColumn_modelo (s : Estado) (m col : Int) (v : Nat) :
    (setColumn s m col v).modelo = s.modelo := by
  unfold setColumn
  by_cases h : m < 0 ∨ m ≥ s.maxDevices ∨ col < 0 ∨ col > 7
  · rw [if_pos h]
  · rw [if_neg h]
    exact (setLed_fold_status m col _ (by omega) (List.range 8) s (by omega)
      (fun r hr => List.mem_range.1 hr) (List.nodup_range 8)).2.1

theorem setColumn_status (s : Estado) (m col : Int) (v : Nat)
    (hm : 0 ≤ m ∧ m < s.maxDevices) (hcol : 0 ≤ col ∧ col ≤ 7) (i : Int) :
    (setColumn s m col v).status i
      = if m * 8 ≤ i ∧ i < m * 8 + 8 then
          filaTrasLed (s.status i) col (v.testBit (i - m * 8).toNat)
        else s.status i := by
  unfold setColumn
  rw [if_neg (by omega)]
  rw [(setLed_fold_status m col _ hcol (List.range 8) s hm
      (fun r hr => List.mem_range.1 hr) (List.nodup_range 8)).2.2 i]
  by_cases h : m * 8 ≤ i ∧ i < m * 8 + 8
  · rw [if_pos ⟨List.mem_range.2 (by omega), h.1⟩, if_pos h, bitRead_ne_zero, mod256_testBit]
    have : (i - m * 8).toNat < 8 := by omega
    simp [this]
  · rw [if_neg h, if_neg]
    rintro ⟨h1, h2⟩
    have := List.mem_range.1 h1
    omega

theorem setColumn_led (s : Estado) (a col : Int) (v : Nat) (m r c : Int)
    (hr : 0 ≤ r ∧ r ≤ 7) (hc : 0 ≤ c ∧ c ≤ 7) :
    led (setColumn s a col v) m r c
      = if 0 ≤ a ∧ a < s.maxDevices ∧ m = a ∧ c = col then v.testBit r.toNat
        else led s m r c := by
  by_cases hval : a < 0 ∨ a ≥ s.maxDevices ∨ col < 0 ∨ col > 7
  · rw [setColumn_fuera s a col v hval, if_neg (by omega)]
  · have ha : 0 ≤ a ∧ a < s.maxDevices := by omega
    have hcol : 0 ≤ col ∧ col ≤ 7 := by omega
    rw [led_eq_testBit _ m r c hc, led_eq_testBit s m r c hc, setColumn_status s a col v ha hcol]
    by_cases hma : m = a
    · subst hma
      rw [if_pos (by omega), filaTrasLed_testBit _ col _ hcol]
      have h8 : 7 - c.toNat < 8 := by omega
      have hrr : (m * 8 + r - m * 8).toNat = r.toNat := by congr 1; omega
      by_cases hcc : c = col
      · subst hcc
        rw [if_pos rfl, if_pos ⟨ha.1, ha.2, rfl, rfl⟩, hrr]
        simp [h8]
      · rw [if_neg (by omega), if_neg (fun h => hcc h.2.2.2)]
        simp [h8]
    · rw [if_neg (by omega), if_neg (fun h => hma h.2.2.1)]

/-- C5: for every frame-buffer state, valid module m, column col in 0..7 and byte `bits`,
after `setColumn(m,col,bits)` the LED at column col of row r of module m (the bit that
`setLed` addresses) equals bit r of `bits` for every r in 0..7; every other column of
module m keeps its LEDs, and the rows of every other module are unchanged. -/
theorem setColumn_reconstruye (s : Estado) (m col : Int) (bits : Nat)
    (hm : 0 ≤ m ∧ m < s.maxDevices) (hcol : 0 ≤ col ∧ col ≤ 7) :
    (∀ r : Int, 0 ≤ r ∧ r ≤ 7 → led (setColumn s m col bits) m r col = bits.testBit r.toNat)
      ∧ (∀ r c : Int, 0 ≤ r ∧ r ≤ 7 → 0 ≤ c ∧ c ≤ 7 → c ≠ col →
          led (setColumn s m col bits) m r c = led s m r c)
      ∧ (∀ m2 r : Int, m2 ≠ m → 0 ≤ r ∧ r ≤ 7 →
          fila (setColumn s m col bits) m2 r = fila s m2 r) := by
  refine ⟨fun r hr => ?_, fun r c hr hc hne => ?_, fun m2 r hne hr => ?_⟩
  · rw [setColumn_led s m col bits m r col hr hcol, if_pos ⟨hm.1, hm.2, rfl, rfl⟩]
  · rw [setColumn_led s m col bits m r c hr hc, if_neg (fun h => hne h.2.2.2)]
  · unfold fila
    rw [setColumn_status s m col bits hm hcol, if_neg (by omega)]

/-- Witness of C5: column 3 of module 1 in a chain of two, written with 0xA5. -/
theorem setColumn_reconstruye_witness :
    (0 ≤ (1 : Int) ∧ (1 : Int) < (enBlanco 2 1).maxDevices)
      ∧ ((∀ r : Int, 0 ≤ r ∧ r ≤ 7 →
          led (setColumn (enBlanco 2 1) 1 3 0xA5) 1 r 3 = (0xA5 : Nat).testBit r.toNat)
      ∧ (∀ r c : Int, 0 ≤ r ∧ r ≤ 7 → 0 ≤ c ∧ c ≤ 7 → c ≠ 3 →
          led (setColumn (enBlanco 2 1) 1 3 0xA5) 1 r c = led (enBlanco 2 1) 1 r c)
      ∧ (∀ m2 r : Int, m2 ≠ 1 → 0 ≤ r ∧ r ≤ 7 →
          fila (setColumn (enBlanco 2 1) 1 3 0xA5) m2 r = fila (enBlanco 2 1) m2 r)) :=
  ⟨by decide, setColumn_reconstruye (enBlanco 2 1) 1 3 0xA5 (by decide) (by decide)⟩

/-! ## Orientation transform -/

theorem range_ocho : List.range 8 = [0, 1, 2, 3, 4, 5, 6, 7] := by decide

theorem paso_antihorario (o : List Nat) (i : Nat) (t0 t1 t2 t3 t4 t5 t6 t7 : Nat) :
    [7, 6, 5, 4, 3, 2, 1, 0].foldl (fun t (b : Nat) =>
        t.set b (bitWrite (leer t b) (7 - i) (bitRead (leer o i) b))) [t0, t1, t2, t3, t4, t5, t6, t7]
      = [bitWrite t0 (7 - i) (bitRead (leer o i) 0), bitWrite t1 (7 - i) (bitRead (leer o i) 1), bitWrite t2 (7 - i) (bitRead (leer o i) 2), bitWrite t3 (7 - i) (bitRead (leer o i) 3), bitWrite t4 (7 - i) (bitRead (leer o i) 4), bitWrite t5 (7 - i) (bitRead (leer o i) 5), bitWrite t6 (7 - i) (bitRead (leer o i) 6), bitWrite t7 (7 - i) (bitRead (leer o i) 7)] := rfl

theorem paso_horario (o : List Nat) (i : Nat) (t0 t1 t2 t3 t4 t5 t6 t7 : Nat) :
    [0, 1, 2, 3, 4, 5, 6, 7].foldl (fun t (b : Nat) =>
        t.set (7 - b) (bitWrite (leer t (7 - b)) i (bitRead (leer o i) b))) [t0, t1, t2, t3, t4, t5, t6, t7]
      = [bitWrite t0 i (bitRead (leer o i) 7), bitWrite t1 i (bitRead (leer o i) 6), bitWrite t2 i (bitRead (leer o i) 5), bitWrite t3 i (bitRead (leer o i) 4), bitWrite t4 i (bitRead (leer o i) 3), bitWrite t5 i (bitRead (leer o i) 2), bitWrite t6 i (bitRead (leer o i) 1), bitWrite t7 i (bitRead (leer o i) 0)] := rfl

theorem paso_espejo (o : List Nat) (i : Nat) (t0 t1 t2 t3 t4 t5 t6 t7 : Nat) :
    [0, 1, 2, 3, 4, 5, 6, 7].foldl (fun t (k : Nat) =>
        t.set (7 - k) (bitWrite (leer t (7 - k)) i (bitRead (leer o k) i))) [t0, t1, t2, t3, t4, t5, t6, t7]
      = [bitWrite t0 i (bitRead (leer o 7) i), bitWrite t1 i (bitRead (leer o 6) i), bitWrite t2 i (bitRead (leer o 5) i), bitWrite t3 i (bitRead (leer o 4) i), bitWrite t4 i (bitRead (leer o 3) i), bitWrite t5 i (bitRead (leer o 2) i), bitWrite t6 i (bitRead (leer o 1) i), bitWrite t7 i (bitRead (leer o 0) i)] := rfl

theorem rotar_antihorario_codigo_ocho (a0 a1 a2 a3 a4 a5 a6 a7 : Nat) :
    rotar_antihorario_codigo [a0, a1, a2, a3, a4, a5, a6, a7]
      = [bitWrite (bitWrite (bitWrite (bitWrite (bitWrite (bitWrite (bitWrite (bitWrite 0 7 (bitRead a0 0)) 6 (bitRead a1 0)) 5 (bitRead a2 0)) 4 (bitRead a3 0)) 3 (bitRead a4 0)) 2 (bitRead a5 0)) 1 (bitRead a6 0)) 0 (bitRead a7 0),
       bitWrite (bitWrite (bitWrite (bitWrite (bitWrite (bitWrite (bitWrite (bitWrite 0 7 (bitRead a0 1)) 6 (bitRead a1 1)) 5 (bitRead a2 1)) 4 (bitRead a3 1)) 3 (bitRead a4 1)) 2 (bitRead a5 1)) 1 (bitRead a6 1)) 0 (bitRead a7 1),
       bitWrite (bitWrite (bitWrite (bitWrite (bitWrite (bitWrite (bitWrite (bitWrite 0 7 (bitRead a0 2)) 6 (bitRead a1 2)) 5 (bitRead a2 2)) 4 (bitRead a3 2)) 3 (bitRead a4 2)) 2 (bitRead a5 2)) 1 (bitRead a6 2)) 0 (bitRead a7 2),
       bitWrite (bitWrite (bitWrite (bitWrite (bitWrite (bitWrite (bitWrite (bitWrite 0 7 (bitRead a0 3)) 6 (bitRead a1 3)) 5 (bitRead a2 3)) 4 (bitRead a3 3)) 3 (bitRead a4 3)) 2 (bitRead a5 3)) 1 (bitRead a6 3)) 0 (bitRead a7 3),
       bitWrite (bitWrite (bitWrite (bitWrite (bitWrite (bitWrite (bitWrite (bitWrite 0 7 (bitRead a0 4)) 6 (bitRead a1 4)) 5 (bitRead a2 4)) 4 (bitRead a3 4)) 3 (bitRead a4 4)) 2 (bitRead a5 4)) 1 (bitRead a6 4)) 0 (bitRead a7 4),
       bitWrite (bitWrite (bitWrite (bitWrite (bitWrite (bitWrite (bitWrite (bitWrite 0 7 (bitRead a0 5)) 6 (bitRead a1 5)) 5 (bitRead a2 5)) 4 (bitRead a3 5)) 3 (bitRead a4 5)) 2 (bitRead a5 5)) 1 (bitRead a6 5)) 0 (bitRead a7 5),
       bitWrite (bitWrite (bitWrite (bitWrite (bitWrite (bitWrite (bitWrite (bitWrite 0 7 (bitRead a0 6)) 6 (bitRead a1 6)) 5 (bitRead a2 6)) 4 (bitRead a3 6)) 3 (bitRead a4 6)) 2 (bitRead a5 6)) 1 (bitRead a6 6)) 0 (bitRead a7 6),
       bitWrite (bitWrite (bitWrite (bitWrite (bitWrite (bitWrite (bitWrite (bitWrite 0 7 (bitRead a0 7)) 6 (bitRead a1 7)) 5 (bitRead a2 7)) 4 (bitRead a3 7)) 3 (bitRead a4 7)) 2 (bitRead a5 7)) 1 (bitRead a6 7)) 0 (bitRead a7 7)] := by
  unfold rotar_antihorario_codigo
  simp only [range_ocho, List.foldl_cons, List.foldl_nil, paso_antihorario]
  simp [leer]

theorem rotar_horario_codigo_ocho (a0 a1 a2 a3 a4 a5 a6 a7 : Nat) :
    rotar_horario_codigo [a0, a1, a2, a3, a4, a5, a6, a7]
      = [bitWrite (bitWrite (bitWrite (bitWrite (bitWrite (bitWrite (bitWrite (bitWrite 0 0 (bitRead a0 7)) 1 (bitRead a1 7)) 2 (bitRead a2 7)) 3 (bitRead a3 7)) 4 (bitRead a4 7)) 5 (bitRead a5 7)) 6 (bitRead a6 7)) 7 (bitRead a7 7),
       bitWrite (bitWrite (bitWrite (bitWrite (bitWrite (bitWrite (bitWrite (bitWrite 0 0 (bitRead a0 6)) 1 (bitRead a1 6)) 2 (bitRead a2 6)) 3 (bitRead a3 6)) 4 (bitRead a4 6)) 5 (bitRead a5 6)) 6 (bitRead a6 6)) 7 (bitRead a7 6),
       bitWrite (bitWrite (bitWrite (bitWrite (bitWrite (bitWrite (bitWrite (bitWrite 0 0 (bitRead a0 5)) 1 (bitRead a1 5)) 2 (bitRead a2 5)) 3 (bitRead a3 5)) 4 (bitRead a4 5)) 5 (bitRead a5 5)) 6 (bitRead a6 5)) 7 (bitRead a7 5),
       bitWrite (bitWrite (bitWrite (bitWrite (bitWrite (bitWrite (bitWrite (bitWrite 0 0 (bitRead a0 4)) 1 (bitRead a1 4)) 2 (bitRead a2 4)) 3 (bitRead a3 4)) 4 (bitRead a4 4)) 5 (bitRead a5 4)) 6 (bitRead a6 4)) 7 (bitRead a7 4),
       bitWrite (bitWrite (bitWrite (bitWrite (bitWrite (bitWrite (bitWrite (bitWrite 0 0 (bitRead a0 3)) 1 (bitRead a1 3)) 2 (bitRead a2 3)) 3 (bitRead a3 3)) 4 (bitRead a4 3)) 5 (bitRead a5 3)) 6 (bitRead a6 3)) 7 (bitRead a7 3),
       bitWrite (bitWrite (bitWrite (bitWrite (bitWrite (bitWrite (bitWrite (bitWrite 0 0 (bitRead a0 2)) 1 (bitRead a1 2)) 2 (bitRead a2 2)) 3 (bitRead a3 2)) 4 (bitRead a4 2)) 5 (bitRead a5 2)) 6 (bitRead a6 2)) 7 (bitRead a7 2),
       bitWrite (bitWrite (bitWrite (bitWrite (bitWrite (bitWrite (bitWrite (bitWrite 0 0 (bitRead a0 1)) 1 (bitRead a1 1)) 2 (bitRead a2 1)) 3 (bitRead a3 1)) 4 (bitRead a4 1)) 5 (bitRead a5 1)) 6 (bitRead a6 1)) 7 (bitRead a7 1),
       bitWrite (bitWrite (bitWrite (bitWrite (bitWrite (bitWrite (bitWrite (bitWrite 0 0 (bitRead a0 0)) 1 (bitRead a1 0)) 2 (bitRead a2 0)) 3 (bitRead a3 0)) 4 (bitRead a4 0)) 5 (bitRead a5 0)) 6 (bitRead a6 0)) 7 (bitRead a7 0)] := by
  unfold rotar_horario_codigo
  simp only [range_ocho, List.foldl_cons, List.foldl_nil, paso_horario]
  simp [leer]

theorem espejo_codigo_ocho (a0 a1 a2 a3 a4 a5 a6 a7 : Nat) :
    espejo_codigo [a0, a1, a2, a3, a4, a5, a6, a7]
      = [bitWrite (bitWrite (bitWrite (bitWrite (bitWrite (bitWrite (bitWrite (bitWrite 0 0 (bitRead a7 0)) 1 (bitRead a7 1)) 2 (bitRead a7 2)) 3 (bitRead a7 3)) 4 (bitRead a7 4)) 5 (bitRead a7 5)) 6 (bitRead a7 6)) 7 (bitRead a7 7),
       bitWrite (bitWrite (bitWrite (bitWrite (bitWrite (bitWrite (bitWrite (bitWrite 0 0 (bitRead a6 0)) 1 (bitRead a6 1)) 2 (bitRead a6 2)) 3 (bitRead a6 3)) 4 (bitRead a6 4)) 5 (bitRead a6 5)) 6 (bitRead a6 6)) 7 (bitRead a6 7),
       bitWrite (bitWrite (bitWrite (bitWrite (bitWrite (bitWrite (bitWrite (bitWrite 0 0 (bitRead a5 0)) 1 (bitRead a5 1)) 2 (bitRead a5 2)) 3 (bitRead a5 3)) 4 (bitRead a5 4)) 5 (bitRead a5 5)) 6 (bitRead a5 6)) 7 (bitRead a5 7),
       bitWrite (bitWrite (bitWrite (bitWrite (bitWrite (bitWrite (bitWrite (bitWrite 0 0 (bitRead a4 0)) 1 (bitRead a4 1)) 2 (bitRead a4 2)) 3 (bitRead a4 3)) 4 (bitRead a4 4)) 5 (bitRead a4 5)) 6 (bitRead a4 6)) 7 (bitRead a4 7),
       bitWrite (bitWrite (bitWrite (bitWrite (bitWrite (bitWrite (bitWrite (bitWrite 0 0 (bitRead a3 0)) 1 (bitRead a3 1)) 2 (bitRead a3 2)) 3 (bitRead a3 3)) 4 (bitRead a3 4)) 5 (bitRead a3 5)) 6 (bitRead a3 6)) 7 (bitRead a3 7),
       bitWrite (bitWrite (bitWrite (bitWrite (bitWrite (bitWrite (bitWrite (bitWrite 0 0 (bitRead a2 0)) 1 (bitRead a2 1)) 2 (bitRead a2 2)) 3 (bitRead a2 3)) 4 (bitRead a2 4)) 5 (bitRead a2 5)) 6 (bitRead a2 6)) 7 (bitRead a2 7),
       bitWrite (bitWrite (bitWrite (bitWrite (bitWrite (bitWrite (bitWrite (bitWrite 0 0 (bitRead a1 0)) 1 (bitRead a1 1)) 2 (bitRead a1 2)) 3 (bitRead a1 3)) 4 (bitRead a1 4)) 5 (bitRead a1 5)) 6 (bitRead a1 6)) 7 (bitRead a1 7),
       bitWrite (bitWrite (bitWrite (bitWrite (bitWrite (bitWrite (bitWrite (bitWrite 0 0 (bitRead a0 0)) 1 (bitRead a0 1)) 2 (bitRead a0 2)) 3 (bitRead a0 3)) 4 (bitRead a0 4)) 5 (bitRead a0 5)) 6 (bitRead a0 6)) 7 (bitRead a0 7)] := by
  unfold espejo_codigo
  simp only [range_ocho, List.foldl_cons, List.foldl_nil, paso_espejo]
  simp [leer]

theorem bitWrite_testBit (x n v i : Nat) (hn : n < 8) :
    (bitWrite x n v).testBit i
      = (decide (i < 8) && if i = n then decide (v ≠ 0) else x.testBit i) := by
  have h32 : (2 : Nat) ^ n % 4294967296 = 2 ^ n := by
    apply Nat.mod_eq_of_lt
    calc 2 ^ n < 2 ^ 8 := Nat.pow_lt_pow_right (by norm_num) hn
      _ < 4294967296 := by norm_num
  have hF : (0xFFFFFFFF : Nat).testBit i = decide (i < 32) := by
    have : (0xFFFFFFFF : Nat) = 2 ^ 32 - 1 := by norm_num
    rw [this, Nat.testBit_two_pow_sub_one]
  unfold bitWrite bitSet bitClear
  rw [Nat.one_shiftLeft, h32]
  by_cases hi : i < 8
  · have hi32 : i < 32 := by omega
    by_cases hv : v = 0
    · by_cases h : i = n
      · subst h
        simp [hv, mod256_testBit, Nat.testBit_and, Nat.testBit_xor, Nat.testBit_two_pow, hF, hi,
          hi32]
      · have h' : ¬ (n = i) := fun e => h e.symm
        simp [hv, mod256_testBit, Nat.testBit_and, Nat.testBit_xor, Nat.testBit_two_pow, hF, hi,
          hi32, h, h']
    · by_cases h : i = n
      · subst h
        simp [hv, mod256_testBit, Nat.testBit_or, Nat.testBit_two_pow, hi]
      · have h' : ¬ (n = i) := fun e => h e.symm
        simp [hv, mod256_testBit, Nat.testBit_or, Nat.testBit_two_pow, hi, h, h']
  · by_cases hv : v = 0 <;> simp [hv, mod256_testBit, hi]

theorem bitRead_decide (x n : Nat) : decide (bitRead x n ≠ 0) = x.testBit n := by
  rw [← bitRead_ne_zero]
  by_cases h : bitRead x n = 0 <;> simp [h]

theorem ocho_elementos (p : List Nat) (hp : p.length = 8) :
    ∃ a0 a1 a2 a3 a4 a5 a6 a7 : Nat, p = [a0, a1, a2, a3, a4, a5, a6, a7] := by
  match p, hp with
  | [a0, a1, a2, a3, a4, a5, a6, a7], _ => exact ⟨a0, a1, a2, a3, a4, a5, a6, a7, rfl⟩

theorem bitWrite_bitRead_testBit (x n a b i : Nat) (hn : n < 8) :
    (bitWrite x n (bitRead a b)).testBit i
      = (decide (i < 8) && if i = n then a.testBit b else x.testBit i) := by
  rw [bitWrite_testBit _ _ _ _ hn, bitRead_decide]

theorem rotar_antihorario_bit (p : List Nat) (hp : p.length = 8) (row col : Nat)
    (hrow : row < 8) (hcol : col < 8) :
    bitDe (rotar_antihorario_codigo p) row col = bitDe p (7 - col) row := by
  obtain ⟨a0, a1, a2, a3, a4, a5, a6, a7, rfl⟩ := ocho_elementos p hp
  rw [rotar_antihorario_codigo_ocho]
  unfold bitDe
  interval_cases row <;> interval_cases col <;>
    simp only [leer, List.getD_cons_succ, List.getD_cons_zero,
      bitWrite_bitRead_testBit _ 0 _ _ _ (by decide), bitWrite_bitRead_testBit _ 1 _ _ _ (by decide),
      bitWrite_bitRead_testBit _ 2 _ _ _ (by decide), bitWrite_bitRead_testBit _ 3 _ _ _ (by decide),
      bitWrite_bitRead_testBit _ 4 _ _ _ (by decide), bitWrite_bitRead_testBit _ 5 _ _ _ (by decide),
      bitWrite_bitRead_testBit _ 6 _ _ _ (by decide), bitWrite_bitRead_testBit _ 7 _ _ _ (by decide)] <;>
    simp

theorem rotar_horario_bit (p : List Nat) (hp : p.length = 8) (row col : Nat)
    (hrow : row < 8) (hcol : col < 8) :
    bitDe (rotar_horario_codigo p) row col = bitDe p col (7 - row) := by
  obtain ⟨a0, a1, a2, a3, a4, a5, a6, a7, rfl⟩ := ocho_elementos p hp
  rw [rotar_horario_codigo_ocho]
  unfold bitDe
  interval_cases row <;> interval_cases col <;>
    simp only [leer, List.getD_cons_succ, List.getD_cons_zero,
      bitWrite_bitRead_testBit _ 0 _ _ _ (by decide), bitWrite_bitRead_testBit _ 1 _ _ _ (by decide),
      bitWrite_bitRead_testBit _ 2 _ _ _ (by decide), bitWrite_bitRead_testBit _ 3 _ _ _ (by decide),
      bitWrite_bitRead_testBit _ 4 _ _ _ (by decide), bitWrite_bitRead_testBit _ 5 _ _ _ (by decide),
      bitWrite_bitRead_testBit _ 6 _ _ _ (by decide), bitWrite_bitRead_testBit _ 7 _ _ _ (by decide)] <;>
    simp

theorem espejo_bit (p : List Nat) (hp : p.length = 8) (row col : Nat)
    (hrow : row < 8) (hcol : col < 8) :
    bitDe (espejo_codigo p) row col = bitDe p (7 - row) col := by
  obtain ⟨a0, a1, a2, a3, a4, a5, a6, a7, rfl⟩ := ocho_elementos p hp
  rw [espejo_codigo_ocho]
  unfold bitDe
  interval_cases row <;> interval_cases col <;>
    simp only [leer, List.getD_cons_succ, List.getD_cons_zero,
      bitWrite_bitRead_testBit _ 0 _ _ _ (by decide), bitWrite_bitRead_testBit _ 1 _ _ _ (by decide),
      bitWrite_bitRead_testBit _ 2 _ _ _ (by decide), bitWrite_bitRead_testBit _ 3 _ _ _ (by decide),
      bitWrite_bitRead_testBit _ 4 _ _ _ (by decide), bitWrite_bitRead_testBit _ 5 _ _ _ (by decide),
      bitWrite_bitRead_testBit _ 6 _ _ _ (by decide), bitWrite_bitRead_testBit _ 7 _ _ _ (by decide)] <;>
    simp

/-- C6: for every 8-byte pattern, reading (row,col) as bit index col of byte row, the
orientation transform of the code equals the reference definition of the specification in
each mode: mode 0 (`rotar_antihorario_codigo`) gives output(row,col) = input(7-col,row), mode 1
(`rotar_horario_codigo`) gives output(row,col) = input(col,7-row), mode 2 (`espejo_codigo`)
gives output(row,col) = input(7-row,col), for all row, col in 0..7. -/
theorem rotarCodigo_referencia (p : List Nat) (modo : Int) (row col : Nat)
    (hp : p.length = 8) (hmodo : modo = 0 ∨ modo = 1 ∨ modo = 2)
    (hrow : row < 8) (hcol : col < 8) :
    bitDe (rotarCodigo modo p) row col = transformReferencia modo (bitDe p) row col := by
  rcases hmodo with h | h | h <;> subst h
  · simp only [rotarCodigo, transformReferencia, if_true]
    exact rotar_antihorario_bit p hp row col hrow hcol
  · simp only [rotarCodigo, transformReferencia, if_true, one_ne_zero, if_false]
    exact rotar_horario_bit p hp row col hrow hcol
  · have h20 : ¬ ((2 : Int) = 0) := by decide
    have h21 : ¬ ((2 : Int) = 1) := by decide
    simp only [rotarCodigo, transformReferencia, if_true, h20, h21, if_false]
    exact espejo_bit p hp row col hrow hcol

/-- Witness of C6: bit (1,2) of the clockwise-mount transform of a pattern. -/
theorem rotarCodigo_referencia_witness :
    bitDe (rotarCodigo 0 [1, 2, 4, 8, 16, 32, 64, 129]) 1 2
      = transformReferencia 0 (bitDe [1, 2, 4, 8, 16, 32, 64, 129]) 1 2 :=
  rotarCodigo_referencia [1, 2, 4, 8, 16, 32, 64, 129] 0 1 2 (by decide) (by decide) (by decide)
    (by decide)

theorem bitWrite_lt (x n v : Nat) : bitWrite x n v < 256 := by
  unfold bitWrite bitSet bitClear
  split_ifs <;> exact Nat.mod_lt _ (by norm_num)

theorem rotar_antihorario_esCodigo (p : List Nat) (hp : p.length = 8) :
    EsCodigo (rotar_antihorario_codigo p) := by
  obtain ⟨a0, a1, a2, a3, a4, a5, a6, a7, rfl⟩ := ocho_elementos p hp
  rw [rotar_antihorario_codigo_ocho]
  refine ⟨rfl, fun x hx => ?_⟩
  simp only [List.mem_cons, List.mem_singleton, List.not_mem_nil, or_false] at hx
  rcases hx with h | h | h | h | h | h | h | h <;> rw [h] <;> exact bitWrite_lt _ _ _

theorem rotar_horario_esCodigo (p : List Nat) (hp : p.length = 8) :
    EsCodigo (rotar_horario_codigo p) := by
  obtain ⟨a0, a1, a2, a3, a4, a5, a6, a7, rfl⟩ := ocho_elementos p hp
  rw [rotar_horario_codigo_ocho]
  refine ⟨rfl, fun x hx => ?_⟩
  simp only [List.mem_cons, List.mem_singleton, List.not_mem_nil, or_false] at hx
  rcases hx with h | h | h | h | h | h | h | h <;> rw [h] <;> exact bitWrite_lt _ _ _

theorem espejo_esCodigo (p : List Nat) (hp : p.length = 8) :
    EsCodigo (espejo_codigo p) := by
  obtain ⟨a0, a1, a2, a3, a4, a5, a6, a7, rfl⟩ := ocho_elementos p hp
  rw [espejo_codigo_ocho]
  refine ⟨rfl, fun x hx => ?_⟩
  simp only [List.mem_cons, List.mem_singleton, List.not_mem_nil, or_false] at hx
  rcases hx with h | h | h | h | h | h | h | h <;> rw [h] <;> exact bitWrite_lt _ _ _

theorem byte_ext (x y : Nat) (hx : x < 256) (hy : y < 256)
    (h : ∀ i < 8, x.testBit i = y.testBit i) : x = y := by
  apply Nat.eq_of_testBit_eq
  intro i
  by_cases hi : i < 8
  · exact h i hi
  · have h2 : (2 : Nat) ^ 8 ≤ 2 ^ i := Nat.pow_le_pow_right (by norm_num) (by omega)
    have hx8 : x < 2 ^ 8 := by norm_num; exact hx
    have hy8 : y < 2 ^ 8 := by norm_num; exact hy
    rw [Nat.testBit_lt_two_pow (lt_of_lt_of_le hx8 h2),
      Nat.testBit_lt_two_pow (lt_of_lt_of_le hy8 h2)]

theorem codigo_ext (p q : List Nat) (hp : EsCodigo p) (hq : EsCodigo q)
    (h : ∀ row < 8, ∀ col < 8, bitDe p row col = bitDe q row col) : p = q := by
  apply List.ext_getElem (by rw [hp.1, hq.1])
  intro n h1 h2
  have hn : n < 8 := by rw [hp.1] at h1; exact h1
  apply byte_ext _ _ (hp.2 _ (List.getElem_mem _)) (hq.2 _ (List.getElem_mem _))
  intro i hi
  have := h n hn i hi
  unfold bitDe leer at this
  rw [List.getD_eq_getElem _ _ h1, List.getD_eq_getElem _ _ h2] at this
  exact this

theorem horario_antihorario (p : List Nat) (hp : EsCodigo p) :
    rotar_horario_codigo (rotar_antihorario_codigo p) = p := by
  have h1 := rotar_antihorario_esCodigo p hp.1
  apply codigo_ext _ _ (rotar_horario_esCodigo _ h1.1) hp
  intro row hrow col hcol
  rw [rotar_horario_bit _ h1.1 row col hrow hcol,
    rotar_antihorario_bit p hp.1 col (7 - row) hcol (by omega)]
  congr 1
  omega

theorem antihorario_horario (p : List Nat) (hp : EsCodigo p) :
    rotar_antihorario_codigo (rotar_horario_codigo p) = p := by
  have h1 := rotar_horario_esCodigo p hp.1
  apply codigo_ext _ _ (rotar_antihorario_esCodigo _ h1.1) hp
  intro row hrow col hcol
  rw [rotar_antihorario_bit _ h1.1 row col hrow hcol,
    rotar_horario_bit p hp.1 (7 - col) row (by omega) hrow]
  congr 1
  omega

theorem espejo_espejo (p : List Nat) (hp : EsCodigo p) :
    espejo_codigo (espejo_codigo p) = p := by
  have h1 := espejo_esCodigo p hp.1
  apply codigo_ext _ _ (espejo_esCodigo _ h1.1) hp
  intro row hrow col hcol
  rw [espejo_bit _ h1.1 row col hrow hcol, espejo_bit p hp.1 (7 - row) col (by omega) hcol]
  congr 1
  omega

/-- C7: for every 8-byte pattern, applying the ClockwiseMount transform (mode 0) four times
returns the original pattern, and applying the MirroredMount transform (mode 2) twice returns
the original pattern. -/
theorem rotarCodigo_cuatro_y_dos (p : List Nat) (hp : EsCodigo p) :
    rotarCodigo 0 (rotarCodigo 0 (rotarCodigo 0 (rotarCodigo 0 p))) = p
      ∧ rotarCodigo 2 (rotarCodigo 2 p) = p := by
  have h20 : ¬ ((2 : Int) = 0) := by decide
  have h21 : ¬ ((2 : Int) = 1) := by decide
  simp only [rotarCodigo, if_true, h20, h21, if_false]
  refine ⟨?_, espejo_espejo p hp⟩
  have h1 := rotar_antihorario_esCodigo p hp.1
  have h2 := rotar_antihorario_esCodigo _ h1.1
  have h3 := rotar_antihorario_esCodigo _ h2.1
  have h4 := rotar_antihorario_esCodigo _ h3.1
  apply codigo_ext _ _ h4 hp
  intro row hrow col hcol
  rw [rotar_antihorario_bit _ h3.1 row col hrow hcol,
    rotar_antihorario_bit _ h2.1 (7 - col) row (by omega) hrow,
    rotar_antihorario_bit _ h1.1 (7 - row) (7 - col) (by omega) (by omega),
    rotar_antihorario_bit p hp.1 (7 - (7 - col)) (7 - row) (by omega) (by omega)]
  congr 1 <;> omega

theorem esCodigo_ejemplo : EsCodigo [0x18, 0x24, 0x42, 0x42, 0x7E, 0x42, 0x42, 0x81] :=
  ⟨rfl, by decide⟩

/-- Witness of C7: a concrete glyph-like pattern. -/
theorem rotarCodigo_cuatro_y_dos_witness :
    rotarCodigo 0 (rotarCodigo 0 (rotarCodigo 0 (rotarCodigo 0
        [0x18, 0x24, 0x42, 0x42, 0x7E, 0x42, 0x42, 0x81])))
        = [0x18, 0x24, 0x42, 0x42, 0x7E, 0x42, 0x42, 0x81]
      ∧ rotarCodigo 2 (rotarCodigo 2 [0x18, 0x24, 0x42, 0x42, 0x7E, 0x42, 0x42, 0x81])
        = [0x18, 0x24, 0x42, 0x42, 0x7E, 0x42, 0x42, 0x81] :=
  rotarCodigo_cuatro_y_dos _ esCodigo_ejemplo

/-- C8: in each of the three orientation modes the transform maps 8-byte patterns to 8-byte
patterns, two different patterns never give the same output, and every 8-byte pattern is
the output of some 8-byte pattern. -/
theorem rotarCodigo_biyectiva (modo : Int) (hmodo : modo = 0 ∨ modo = 1 ∨ modo = 2) :
    (∀ a : List Nat, EsCodigo a → EsCodigo (rotarCodigo modo a))
      ∧ (∀ a b : List Nat, EsCodigo a → EsCodigo b →
          rotarCodigo modo a = rotarCodigo modo b → a = b)
      ∧ (∀ b : List Nat, EsCodigo b → ∃ a : List Nat, EsCodigo a ∧ rotarCodigo modo a = b) := by
  have h20 : ¬ ((2 : Int) = 0) := by decide
  have h21 : ¬ ((2 : Int) = 1) := by decide
  rcases hmodo with h | h | h <;> subst h
  · simp only [rotarCodigo, if_true]
    refine ⟨fun a ha => rotar_antihorario_esCodigo a ha.1, fun a b ha hb hab => ?_, fun b hb =>
      ⟨rotar_horario_codigo b, rotar_horario_esCodigo b hb.1, antihorario_horario b hb⟩⟩
    rw [← horario_antihorario a ha, ← horario_antihorario b hb, hab]
  · simp only [rotarCodigo, if_true, one_ne_zero, if_false]
    refine ⟨fun a ha => rotar_horario_esCodigo a ha.1, fun a b ha hb hab => ?_, fun b hb =>
      ⟨rotar_antihorario_codigo b, rotar_antihorario_esCodigo b hb.1, horario_antihorario b hb⟩⟩
    rw [← antihorario_horario a ha, ← antihorario_horario b hb, hab]
  · simp only [rotarCodigo, if_true, h20, h21, if_false]
    refine ⟨fun a ha => espejo_esCodigo a ha.1, fun a b ha hb hab => ?_, fun b hb =>
      ⟨espejo_codigo b, espejo_esCodigo b hb.1, espejo_espejo b hb⟩⟩
    rw [← espejo_espejo a ha, ← espejo_espejo b hb, hab]

/-- Witness of C8: mode 1 maps the example pattern to an 8-byte pattern. -/
theorem rotarCodigo_biyectiva_witness :
    EsCodigo (rotarCodigo 1 [0x18, 0x24, 0x42, 0x42, 0x7E, 0x42, 0x42, 0x81]) :=
  (rotarCodigo_biyectiva 1 (by decide)).1 _ esCodigo_ejemplo

/-! ## Glyph placement -/

theorem tdiv_ocho (p : Int) : p.tdiv 8 = if 0 ≤ p then p / 8 else -((-p) / 8) := by
  by_cases h : 0 ≤ p
  · rw [if_pos h, Int.tdiv_eq_ediv h (by decide)]
  · rw [if_neg h]
    have h2 : p = -(-p) := by omega
    rw [h2, Int.neg_tdiv, Int.tdiv_eq_ediv (by omega) (by decide)]
    simp

theorem tmod_ocho (p : Int) : p.tmod 8 = p - p.tdiv 8 * 8 := by
  have := Int.tdiv_add_tmod' p 8
  omega

theorem escribirBitsBucle1_maxDevices (copia : List Nat) :
    ∀ (is : List Nat) (a q : Int) (s : Estado),
      (escribirBitsBucle1 copia is a q s).maxDevices = s.maxDevices := by
  intro is
  induction is with
  | nil => intro a q s; rfl
  | cons i resto ih =>
    intro a q s
    unfold escribirBitsBucle1
    by_cases h : a > s.maxDevices - 1
    · rw [if_pos h]
    · rw [if_neg h]
      simp only
      split_ifs <;> rw [ih, setColumn_maxDevices]

theorem escribirBitsBucle0_maxDevices (copia : List Nat) :
    ∀ (is : List Nat) (a q : Int) (s : Estado),
      (escribirBitsBucle0 copia is a q s).maxDevices = s.maxDevices := by
  intro is
  induction is with
  | nil => intro a q s; rfl
  | cons i resto ih =>
    intro a q s
    unfold escribirBitsBucle0
    by_cases h : a > s.maxDevices - 1
    · rw [if_pos h]
    · rw [if_neg h]
      simp only
      split_ifs <;> rw [ih, setColumn_maxDevices]

theorem escribirBitsBucle1_sin_cambio (copia : List Nat) :
    ∀ (is : List Nat) (a q : Int) (s : Estado) (m r c : Int),
      0 ≤ r ∧ r ≤ 7 → 0 ≤ c ∧ c ≤ 7 →
      (m * 8 + c < a * 8 + q ∨ m * 8 + c ≥ a * 8 + q + is.length ∨ m < 0 ∨ m ≥ s.maxDevices) →
      led (escribirBitsBucle1 copia is a q s) m r c = led s m r c := by
  intro is
  induction is with
  | nil => intro a q s m r c _ _ _; rfl
  | cons i resto ih =>
    intro a q s m r c hr hc h
    unfold escribirBitsBucle1
    by_cases h1 : a > s.maxDevices - 1
    · rw [if_pos h1]
    · rw [if_neg h1]
      simp only [List.length_cons, Nat.cast_add, Nat.cast_one] at h ⊢
      have hled : led (setColumn s a q (leer copia i)) m r c = led s m r c := by
        rw [setColumn_led s a q _ m r c hr hc, if_neg]
        rintro ⟨h2, h3, h4, h5⟩
        subst h4; subst h5
        omega
      by_cases hq : q = 7
      · rw [if_pos hq, ih (a + 1) 0 _ m r c hr hc (by rw [setColumn_maxDevices]; omega), hled]
      · rw [if_neg hq, ih a (q + 1) _ m r c hr hc (by rw [setColumn_maxDevices]; omega), hled]

theorem escribirBitsBucle0_sin_cambio (copia : List Nat) :
    ∀ (is : List Nat) (a q : Int) (s : Estado) (m r c : Int),
      0 ≤ r ∧ r ≤ 7 → 0 ≤ c ∧ c ≤ 7 →
      (m * 8 + (7 - c) < a * 8 + (7 - q) ∨ m * 8 + (7 - c) ≥ a * 8 + (7 - q) + is.length
        ∨ m < 0 ∨ m ≥ s.maxDevices) →
      led (escribirBitsBucle0 copia is a q s) m r c = led s m r c := by
  intro is
  induction is with
  | nil => intro a q s m r c _ _ _; rfl
  | cons i resto ih =>
    intro a q s m r c hr hc h
    unfold escribirBitsBucle0
    by_cases h1 : a > s.maxDevices - 1
    · rw [if_pos h1]
    · rw [if_neg h1]
      simp only [List.length_cons, Nat.cast_add, Nat.cast_one] at h ⊢
      have hled : led (setColumn s a q (leer copia i)) m r c = led s m r c := by
        rw [setColumn_led s a q _ m r c hr hc, if_neg]
        rintro ⟨h2, h3, h4, h5⟩
        subst h4; subst h5
        omega
      by_cases hq : q = 0
      · rw [if_pos hq, ih (a + 1) 7 _ m r c hr hc (by rw [setColumn_maxDevices]; omega), hled]
      · rw [if_neg hq, ih a (q - 1) _ m r c hr hc (by rw [setColumn_maxDevices]; omega), hled]

theorem escribirBitsBucle1_negativo (copia : List Nat) :
    ∀ (is : List Nat) (a q : Int) (s : Estado), a < 0 → q + is.length ≤ 8 →
      escribirBitsBucle1 copia is a q s = s := by
  intro is
  induction is with
  | nil => intro a q s _ _; rfl
  | cons i resto ih =>
    intro a q s ha hq
    unfold escribirBitsBucle1
    by_cases h1 : a > s.maxDevices - 1
    · rw [if_pos h1]
    · rw [if_neg h1]
      simp only [List.length_cons, Nat.cast_add, Nat.cast_one] at hq ⊢
      rw [setColumn_fuera s a q _ (Or.inl ha)]
      by_cases h7 : q = 7
      · rw [if_pos h7]
        have : resto = [] := List.length_eq_zero.1 (by omega)
        subst this
        rfl
      · rw [if_neg h7]
        exact ih a (q + 1) s ha (by omega)

theorem escribirBitsBucle0_negativo (copia : List Nat) :
    ∀ (is : List Nat) (a q : Int) (s : Estado), a < 0 → (is.length : Int) ≤ q + 1 →
      escribirBitsBucle0 copia is a q s = s := by
  intro is
  induction is with
  | nil => intro a q s _ _; rfl
  | cons i resto ih =>
    intro a q s ha hq
    unfold escribirBitsBucle0
    by_cases h1 : a > s.maxDevices - 1
    · rw [if_pos h1]
    · rw [if_neg h1]
      simp only [List.length_cons, Nat.cast_add, Nat.cast_one] at hq ⊢
      rw [setColumn_fuera s a q _ (Or.inl ha)]
      by_cases h0 : q = 0
      · rw [if_pos h0]
        have : resto = [] := List.length_eq_zero.1 (by omega)
        subst this
        rfl
      · rw [if_neg h0]
        exact ih a (q - 1) s ha (by omega)

theorem escribirBits_sin_cambio (s : Estado) (codigo : List Nat) (p : Int)
    (hmodo : s.modelo = 0 ∨ s.modelo = 1) (m r c : Int)
    (hr : 0 ≤ r ∧ r ≤ 7) (hc : 0 ≤ c ∧ c ≤ 7)
    (h : ¬ (p ≤ columnaLogica s.modelo m c ∧ columnaLogica s.modelo m c < p + 8
          ∧ 0 ≤ columnaLogica s.modelo m c ∧ columnaLogica s.modelo m c < 8 * s.maxDevices)) :
    led (escribirBits s codigo p) m r c = led s m r c := by
  have hdiv := tmod_ocho p
  unfold escribirBits
  rcases hmodo with h0 | h1
  · rw [h0] at h ⊢
    simp only [columnaLogica, zero_ne_one, if_false] at h
    simp only [if_true]
    apply escribirBitsBucle0_sin_cambio _ _ _ _ _ m r c hr hc
    simp only [List.length_cons, List.length_nil]
    omega
  · rw [h1] at h ⊢
    simp only [columnaLogica, if_true] at h
    simp only [one_ne_zero, if_false, if_true]
    apply escribirBitsBucle1_sin_cambio _ _ _ _ _ m r c hr hc
    simp only [List.length_cons, List.length_nil]
    omega

theorem escribirBits_fuera (s : Estado) (codigo : List Nat) (p : Int)
    (hn : 1 ≤ s.maxDevices) (hp : p ≥ 8 * s.maxDevices ∨ p ≤ -8) :
    escribirBits s codigo p = s := by
  have hdiv := tdiv_ocho p
  have hmod := tmod_ocho p
  unfold escribirBits
  simp only
  rcases hp with hp | hp
  · rw [if_pos (by omega)] at hdiv
    have ha : p.tdiv 8 > s.maxDevices - 1 := by omega
    split_ifs
    · unfold escribirBitsBucle0
      rw [if_pos ha]
    · unfold escribirBitsBucle1
      rw [if_pos ha]
    · rfl
  · rw [if_neg (by omega)] at hdiv
    split_ifs
    · apply escribirBitsBucle0_negativo
      · omega
      · simp only [List.length_cons, List.length_nil]
        omega
    · apply escribirBitsBucle1_negativo
      · omega
      · simp only [List.length_cons, List.length_nil]
        omega
    · rfl

/-- C10: writes are clipped, never wrapped. For every chain length n ≥ 1, either
column-filling model (0 or 1), every character and every integer position p,
`escribirCaracter(character, p)` changes only LEDs whose logical column L satisfies
p ≤ L < p+8 and 0 ≤ L < 8n (logical column L being module L div 8, physical column L mod 8
in model 1 and 7 - (L mod 8) in model 0); every other LED of every module is unchanged, and
for p ≥ 8n or p ≤ -8 the call returns the state it was given. -/
theorem escribirCaracter_recorta (e : Entorno) (s : Estado) (caracter p : Int)
    (hn : 1 ≤ s.maxDevices) (hmodo : s.modelo = 0 ∨ s.modelo = 1) :
    (∀ m r c : Int, 0 ≤ r ∧ r ≤ 7 → 0 ≤ c ∧ c ≤ 7 →
        ¬ (p ≤ columnaLogica s.modelo m c ∧ columnaLogica s.modelo m c < p + 8
            ∧ 0 ≤ columnaLogica s.modelo m c
            ∧ columnaLogica s.modelo m c < 8 * s.maxDevices) →
        led (escribirCaracter e s caracter p) m r c = led s m r c)
      ∧ ((p ≥ 8 * s.maxDevices ∨ p ≤ -8) → escribirCaracter e s caracter p = s) :=
  ⟨fun m r c hr hc h => escribirBits_sin_cambio s _ p hmodo m r c hr hc h,
    fun hp => escribirBits_fuera s _ p hn hp⟩

/-- Witness of C10: a chain of two modules under model 1; character `A` at position -3
leaves module 1 untouched, and at position 16 it leaves the whole state untouched. -/
theorem escribirCaracter_recorta_witness :
    led (escribirCaracter entornoEjemplo (enBlanco 2 1) 65 (-3)) 1 0 0 = led (enBlanco 2 1) 1 0 0
      ∧ escribirCaracter entornoEjemplo (enBlanco 2 1) 65 16 = enBlanco 2 1 :=
  ⟨(escribirCaracter_recorta entornoEjemplo (enBlanco 2 1) 65 (-3) (by decide) (by decide)).1
      1 0 0 (by decide) (by decide) (by decide),
    (escribirCaracter_recorta entornoEjemplo (enBlanco 2 1) 65 16 (by decide) (by decide)).2
      (by decide)⟩

theorem escribirBitsBucle1_modelo (copia : List Nat) :
    ∀ (is : List Nat) (a q : Int) (s : Estado),
      (escribirBitsBucle1 copia is a q s).modelo = s.modelo := by
  intro is
  induction is with
  | nil => intro a q s; rfl
  | cons i resto ih =>
    intro a q s
    unfold escribirBitsBucle1
    by_cases h : a > s.maxDevices - 1
    · rw [if_pos h]
    · rw [if_neg h]
      simp only
      split_ifs <;> rw [ih, setColumn_modelo]

theorem escribirBitsBucle0_modelo (copia : List Nat) :
    ∀ (is : List Nat) (a q : Int) (s : Estado),
      (escribirBitsBucle0 copia is a q s).modelo = s.modelo := by
  intro is
  induction is with
  | nil => intro a q s; rfl
  | cons i resto ih =>
    intro a q s
    unfold escribirBitsBucle0
    by_cases h : a > s.maxDevices - 1
    · rw [if_pos h]
    · rw [if_neg h]
      simp only
      split_ifs <;> rw [ih, setColumn_modelo]

theorem escribirBits_maxDevices (s : Estado) (codigo : List Nat) (p : Int) :
    (escribirBits s codigo p).maxDevices = s.maxDevices := by
  unfold escribirBits
  simp only
  split_ifs
  · exact escribirBitsBucle0_maxDevices _ _ _ _ _
  · exact escribirBitsBucle1_maxDevices _ _ _ _ _
  · rfl

theorem escribirBits_modelo (s : Estado) (codigo : List Nat) (p : Int) :
    (escribirBits s codigo p).modelo = s.modelo := by
  unfold escribirBits
  simp only
  split_ifs
  · exact escribirBitsBucle0_modelo _ _ _ _ _
  · exact escribirBitsBucle1_modelo _ _ _ _ _
  · rfl

theorem escribirBitsBucle1_led (copia : List Nat) :
    ∀ (is : List Nat) (a q : Int) (s : Estado) (m r c : Int),
      0 ≤ q ∧ q ≤ 7 → 0 ≤ m ∧ m < s.maxDevices → 0 ≤ r ∧ r ≤ 7 → 0 ≤ c ∧ c ≤ 7 →
      led (escribirBitsBucle1 copia is a q s) m r c
        = if a * 8 + q ≤ m * 8 + c ∧ m * 8 + c < a * 8 + q + is.length then
            (leer copia (is.getD (m * 8 + c - (a * 8 + q)).toNat 0)).testBit r.toNat
          else led s m r c := by
  intro is
  induction is with
  | nil =>
    intro a q s m r c _ _ _ _
    rw [if_neg (by simp only [List.length_nil, Nat.cast_zero]; omega)]
    rfl
  | cons i resto ih =>
    intro a q s m r c hq hm hr hc
    unfold escribirBitsBucle1
    simp only [List.length_cons, Nat.cast_add, Nat.cast_one]
    by_cases h1 : a > s.maxDevices - 1
    · rw [if_pos h1, if_neg (by omega)]
    · rw [if_neg h1]
      have hmd : (setColumn s a q (leer copia i)).maxDevices = s.maxDevices :=
        setColumn_maxDevices _ _ _ _
      have key : ∀ a2 q2 : Int, a2 * 8 + q2 = a * 8 + q + 1 → 0 ≤ q2 ∧ q2 ≤ 7 →
          led (escribirBitsBucle1 copia resto a2 q2 (setColumn s a q (leer copia i))) m r c
            = if a * 8 + q ≤ m * 8 + c ∧ m * 8 + c < a * 8 + q + (resto.length + 1) then
                (leer copia ((i :: resto).getD (m * 8 + c - (a * 8 + q)).toNat 0)).testBit
                  r.toNat
              else led s m r c := by
        intro a2 q2 h2 hq2
        rw [ih a2 q2 _ m r c hq2 (by rw [hmd]; exact hm) hr hc,
          setColumn_led s a q _ m r c hr hc]
        by_cases hL : m * 8 + c = a * 8 + q
        · have hma : m = a := by omega
          have hcq : c = q := by omega
          rw [if_neg (by omega), if_pos ⟨by omega, by omega, hma, hcq⟩, if_pos (by omega)]
          have : (m * 8 + c - (a * 8 + q)).toNat = 0 := by omega
          rw [this]
          rfl
        · by_cases hin : a * 8 + q ≤ m * 8 + c ∧ m * 8 + c < a * 8 + q + (resto.length + 1)
          · rw [if_pos (by omega), if_pos hin]
            have : (m * 8 + c - (a * 8 + q)).toNat = (m * 8 + c - (a2 * 8 + q2)).toNat + 1 := by
              omega
            rw [this]
            rfl
          · rw [if_neg (by omega), if_neg hin, if_neg]
            rintro ⟨_, _, h4, h5⟩
            exact hL (by rw [h4, h5])
      by_cases h7 : q = 7
      · simp only [if_pos h7]
        exact key (a + 1) 0 (by omega) (by omega)
      · simp only [if_neg h7]
        exact key a (q + 1) (by omega) (by omega)

theorem escribirBitsBucle0_led (copia : List Nat) :
    ∀ (is : List Nat) (a q : Int) (s : Estado) (m r c : Int),
      0 ≤ q ∧ q ≤ 7 → 0 ≤ m ∧ m < s.maxDevices → 0 ≤ r ∧ r ≤ 7 → 0 ≤ c ∧ c ≤ 7 →
      led (escribirBitsBucle0 copia is a q s) m r c
        = if a * 8 + (7 - q) ≤ m * 8 + (7 - c)
              ∧ m * 8 + (7 - c) < a * 8 + (7 - q) + is.length then
            (leer copia (is.getD (m * 8 + (7 - c) - (a * 8 + (7 - q))).toNat 0)).testBit r.toNat
          else led s m r c := by
  intro is
  induction is with
  | nil =>
    intro a q s m r c _ _ _ _
    rw [if_neg (by simp only [List.length_nil, Nat.cast_zero]; omega)]
    rfl
  | cons i resto ih =>
    intro a q s m r c hq hm hr hc
    unfold escribirBitsBucle0
    simp only [List.length_cons, Nat.cast_add, Nat.cast_one]
    by_cases h1 : a > s.maxDevices - 1
    · rw [if_pos h1, if_neg (by omega)]
    · rw [if_neg h1]
      have hmd : (setColumn s a q (leer copia i)).maxDevices = s.maxDevices :=
        setColumn_maxDevices _ _ _ _
      have key : ∀ a2 q2 : Int, a2 * 8 + (7 - q2) = a * 8 + (7 - q) + 1 → 0 ≤ q2 ∧ q2 ≤ 7 →
          led (escribirBitsBucle0 copia resto a2 q2 (setColumn s a q (leer copia i))) m r c
            = if a * 8 + (7 - q) ≤ m * 8 + (7 - c)
                  ∧ m * 8 + (7 - c) < a * 8 + (7 - q) + (resto.length + 1) then
                (leer copia ((i :: resto).getD
                  (m * 8 + (7 - c) - (a * 8 + (7 - q))).toNat 0)).testBit r.toNat
              else led s m r c := by
        intro a2 q2 h2 hq2
        rw [ih a2 q2 _ m r c hq2 (by rw [hmd]; exact hm) hr hc,
          setColumn_led s a q _ m r c hr hc]
        by_cases hL : m * 8 + (7 - c) = a * 8 + (7 - q)
        · have hma : m = a := by omega
          have hcq : c = q := by omega
          rw [if_neg (by omega), if_pos ⟨by omega, by omega, hma, hcq⟩, if_pos (by omega)]
          have : (m * 8 + (7 - c) - (a * 8 + (7 - q))).toNat = 0 := by omega
          rw [this]
          rfl
        · by_cases hin : a * 8 + (7 - q) ≤ m * 8 + (7 - c)
              ∧ m * 8 + (7 - c) < a * 8 + (7 - q) + (resto.length + 1)
          · rw [if_pos (by omega), if_pos hin]
            have : (m * 8 + (7 - c) - (a * 8 + (7 - q))).toNat
                = (m * 8 + (7 - c) - (a2 * 8 + (7 - q2))).toNat + 1 := by
              omega
            rw [this]
            rfl
          · rw [if_neg (by omega), if_neg hin, if_neg]
            rintro ⟨_, _, h4, h5⟩
            exact hL (by rw [h4, h5])
      by_cases h0 : q = 0
      · simp only [if_pos h0]
        exact key (a + 1) 7 (by omega) (by omega)
      · simp only [if_neg h0]
        exact key a (q - 1) (by omega) (by omega)

theorem obtenerBitsCaracter_length (e : Entorno) (caracter : Int) :
    (obtenerBitsCaracter e caracter).length = 8 := by
  unfold obtenerBitsCaracter obtenerSecuenciaTabla asterisco
  split_ifs <;> simp

theorem getD_ascendente : ∀ j < 8, [0, 1, 2, 3, 4, 5, 6, 7].getD j 0 = j := by decide

theorem getD_descendente : ∀ j < 8, [7, 6, 5, 4, 3, 2, 1, 0].getD j 0 = 7 - j := by decide

theorem escribirBits_alineado (s : Estado) (codigo : List Nat) (k : Nat)
    (hk : (k : Int) < s.maxDevices) (hmodo : s.modelo = 0 ∨ s.modelo = 1) (r c : Int)
    (hr : 0 ≤ r ∧ r ≤ 7) (hc : 0 ≤ c ∧ c ≤ 7) :
    led (escribirBits s codigo ((k : Int) * 8 + 0)) k r c
      = (leer (rotarCodigo s.modelo (codigo.take 8)) c.toNat).testBit r.toNat := by
  have hdiv := tdiv_ocho ((k : Int) * 8 + 0)
  have hmod := tmod_ocho ((k : Int) * 8 + 0)
  rw [if_pos (by omega)] at hdiv
  have ha : ((k : Int) * 8 + 0).tdiv 8 = k := by omega
  have hq : ((k : Int) * 8 + 0).tmod 8 = 0 := by omega
  unfold escribirBits
  simp only [ha, hq]
  rcases hmodo with h0 | h1
  · rw [h0]
    simp only [if_true]
    rw [escribirBitsBucle0_led _ _ _ _ _ k r c (by omega) (by omega) hr hc,
      if_pos (by simp only [List.length_cons, List.length_nil]; omega)]
    have : ((k : Int) * 8 + (7 - c) - ((k : Int) * 8 + (7 - (7 - 0)))).toNat = 7 - c.toNat := by
      omega
    rw [this, getD_descendente _ (by omega)]
    congr 2
    omega
  · rw [h1]
    simp only [one_ne_zero, if_false, if_true]
    rw [escribirBitsBucle1_led _ _ _ _ _ k r c (by omega) (by omega) hr hc,
      if_pos (by simp only [List.length_cons, List.length_nil]; omega)]
    have : ((k : Int) * 8 + c - ((k : Int) * 8 + 0)).toNat = c.toNat := by omega
    rw [this, getD_ascendente _ (by omega)]

theorem escribirFrase_prefijo (e : Entorno) (s : Estado) (frase : List Int)
    (hn : 1 ≤ s.maxDevices) (hmodo : s.modelo = 0 ∨ s.modelo = 1) :
    ∀ k : Nat,
      ((List.range k).foldl (fun st (i : Nat) =>
          escribirCaracter e st (caracterEn frase i) (((i : Int) * 8) + 0)) s).maxDevices
          = s.maxDevices
        ∧ ((List.range k).foldl (fun st (i : Nat) =>
          escribirCaracter e st (caracterEn frase i) (((i : Int) * 8) + 0)) s).modelo
          = s.modelo
        ∧ ∀ m r c : Int, 0 ≤ r ∧ r ≤ 7 → 0 ≤ c ∧ c ≤ 7 →
          led ((List.range k).foldl (fun st (i : Nat) =>
            escribirCaracter e st (caracterEn frase i) (((i : Int) * 8) + 0)) s) m r c
            = if 0 ≤ m ∧ m < k ∧ m < s.maxDevices then
                (leer (rotarCodigo s.modelo (obtenerBitsCaracter e (caracterEn frase m.toNat)))
                  c.toNat).testBit r.toNat
              else led s m r c := by
  intro k
  induction k with
  | zero =>
    refine ⟨rfl, rfl, fun m r c _ _ => ?_⟩
    rw [if_neg (by omega)]
    rfl
  | succ k ih =>
    obtain ⟨h1, h2, h3⟩ := ih
    rw [List.range_succ, List.foldl_append]
    simp only [List.foldl_cons, List.foldl_nil]
    generalize hS : (List.range k).foldl (fun st (i : Nat) =>
      escribirCaracter e st (caracterEn frase i) (((i : Int) * 8) + 0)) s = S at h1 h2 h3
    unfold escribirCaracter
    refine ⟨by rw [escribirBits_maxDevices, h1], by rw [escribirBits_modelo, h2],
      fun m r c hr hc => ?_⟩
    have hmodoS : S.modelo = 0 ∨ S.modelo = 1 := by rw [h2]; exact hmodo
    by_cases hkn : (k : Int) < s.maxDevices
    · by_cases hmk : m = k
      · subst hmk
        rw [escribirBits_alineado S _ k (by rw [h1]; exact hkn) hmodoS r c hr hc,
          if_pos (by omega), h2, List.take_of_length_le (by rw [obtenerBitsCaracter_length])]
        simp
      · rw [escribirBits_sin_cambio S _ _ hmodoS m r c hr hc, h3 m r c hr hc]
        · by_cases hc1 : 0 ≤ m ∧ m < k ∧ m < s.maxDevices
          · rw [if_pos hc1, if_pos (by omega)]
          · rw [if_neg hc1, if_neg (by push_cast; omega)]
        · unfold columnaLogica
          split_ifs <;> omega
    · rw [escribirBits_fuera S _ _ (by rw [h1]; exact hn) (Or.inl (by rw [h1]; omega)),
        h3 m r c hr hc]
      by_cases hc1 : 0 ≤ m ∧ m < k ∧ m < s.maxDevices
      · rw [if_pos hc1, if_pos (by omega)]
      · rw [if_neg hc1, if_neg (by push_cast; omega)]

/-- C9: for every text and every chain length n ≥ 1, in either column-filling model (0 or 1),
`escribirFrase(text, 0)` leaves, for each i < min(length(text), n) and each column c in 0..7,
column c of module i showing byte c of the orientation-transformed glyph of text[i] (row r
of that column = bit r of the byte), and leaves the LEDs of every module with index at or
beyond length(text) unchanged. -/
theorem escribirFrase_cero (e : Entorno) (s : Estado) (frase : List Int)
    (hn : 1 ≤ s.maxDevices) (hmodo : s.modelo = 0 ∨ s.modelo = 1) :
    (∀ i : Nat, i < frase.length → (i : Int) < s.maxDevices →
        ∀ r c : Int, 0 ≤ r ∧ r ≤ 7 → 0 ≤ c ∧ c ≤ 7 →
          led (escribirFrase e s frase 0) i r c
            = (leer (rotarCodigo s.modelo (obtenerBitsCaracter e (caracterEn frase i)))
                c.toNat).testBit r.toNat)
      ∧ (∀ m : Int, m ≥ frase.length → ∀ r c : Int, 0 ≤ r ∧ r ≤ 7 → 0 ≤ c ∧ c ≤ 7 →
          led (escribirFrase e s frase 0) m r c = led s m r c) := by
  have h := (escribirFrase_prefijo e s frase hn hmodo frase.length).2.2
  unfold escribirFrase
  refine ⟨fun i hi hin r c hr hc => ?_, fun m hm r c hr hc => ?_⟩
  · rw [h i r c hr hc, if_pos (by omega), Int.toNat_ofNat]
  · rw [h m r c hr hc, if_neg (by omega)]

/-- Witness of C9: text "AB" on a chain of two modules under model 1: module 0 shows the
transformed glyph of `A` and module 1 the transformed glyph of `B`. -/
theorem escribirFrase_cero_witness :
    (∀ r c : Int, 0 ≤ r ∧ r ≤ 7 → 0 ≤ c ∧ c ≤ 7 →
        led (escribirFrase entornoEjemplo (enBlanco 2 1) [65, 66] 0) 0 r c
          = (leer (rotarCodigo 1 (obtenerBitsCaracter entornoEjemplo 65)) c.toNat).testBit
              r.toNat)
      ∧ (∀ r c : Int, 0 ≤ r ∧ r ≤ 7 → 0 ≤ c ∧ c ≤ 7 →
        led (escribirFrase entornoEjemplo (enBlanco 2 1) [65, 66] 0) 1 r c
          = (leer (rotarCodigo 1 (obtenerBitsCaracter entornoEjemplo 66)) c.toNat).testBit
              r.toNat) :=
  ⟨(escribirFrase_cero entornoEjemplo (enBlanco 2 1) [65, 66] (by decide) (by decide)).1 0
      (by decide) (by decide),
    (escribirFrase_cero entornoEjemplo (enBlanco 2 1) [65, 66] (by decide) (by decide)).1 1
      (by decide) (by decide)⟩

/-! ## The frame buffer mirrors the row registers -/

theorem ultimaEscritura_append (ws : List Escritura) (w : Escritura) (m : Int) (op : Nat) :
    ultimaEscritura (ws ++ [w]) m op
      = if w.addr = m ∧ w.opcode = op then some w.data else ultimaEscritura ws m op := by
  unfold ultimaEscritura
  rw [List.reverse_append, List.reverse_singleton, List.singleton_append, List.find?_cons]
  by_cases h : w.addr = m ∧ w.opcode = op
  · simp [h]
  · simp [h]

theorem toByte_fila (r : Int) (hr : 0 ≤ r ∧ r ≤ 7) : toByte (r + 1) = (r + 1).toNat := by
  unfold toByte
  omega

theorem preserva_spi_otro (a : Int) (o d : Nat) (ho : o % 256 = 0 ∨ 9 ≤ o % 256) :
    Preserva (fun s => spiTransfer s a o d) := by
  intro s
  refine ⟨rfl, fun P h m r hP hm0 hmn hr0 hr7 => ?_⟩
  rw [spiTransfer_escrituras, ultimaEscritura_append, if_neg]
  · exact h m r hP hm0 hmn hr0 hr7
  · rintro ⟨_, h2⟩
    simp only at h2
    omega

theorem coherente_fila (P : Int → Int → Prop) (s : Estado) (a r : Int) (v : Nat) (hv : v < 256)
    (hr : 0 ≤ r ∧ r ≤ 7) (h : Coherente P s) :
    Coherente (fun m r2 => P m r2 ∨ (m = a ∧ r2 = r))
      (spiTransfer { s with status := Function.update s.status (a * 8 + r) v } a
        (toByte (r + 1)) v) := by
  intro m r2 hP hm0 hmn hr0 hr7
  rw [spiTransfer_escrituras, ultimaEscritura_append, spiTransfer_status, toByte_fila r hr]
  simp only
  by_cases hc : m = a ∧ r2 = r
  · obtain ⟨h1, h2⟩ := hc
    subst h1; subst h2
    rw [if_pos ⟨rfl, by omega⟩, Function.update_same, Nat.mod_eq_of_lt hv]
  · rw [if_neg, Function.update_noteq (by omega)]
    · rcases hP with hP | hP
      · exact h m r2 hP hm0 hmn hr0 hr7
      · exact absurd hP hc
    · rintro ⟨h1, h2⟩
      apply hc
      refine ⟨h1.symm, ?_⟩
      omega

theorem coherente_mono (P Q : Int → Int → Prop) (s : Estado) (hPQ : ∀ m r, Q m r → P m r)
    (h : Coherente P s) : Coherente Q s :=
  fun m r hQ hm0 hmn hr0 hr7 => h m r (hPQ m r hQ) hm0 hmn hr0 hr7

theorem preserva_fila (a r : Int) (f : Estado → Nat) (hf : ∀ s, f s < 256)
    (hr : 0 ≤ r ∧ r ≤ 7) :
    Preserva (fun s => spiTransfer { s with status := Function.update s.status (a * 8 + r) (f s) }
      a (toByte (r + 1)) (f s)) := by
  intro s
  refine ⟨rfl, fun P h => ?_⟩
  exact coherente_mono _ P _ (fun m r2 hP => Or.inl hP) (coherente_fila P s a r (f s) (hf s) hr h)

theorem preserva_id : Preserva (fun s => s) := fun _ => ⟨rfl, fun _ h => h⟩

theorem preserva_comp (f g : Estado → Estado) (hf : Preserva f) (hg : Preserva g) :
    Preserva (fun s => g (f s)) := by
  intro s
  refine ⟨by rw [(hg (f s)).1, (hf s).1], fun P h => (hg (f s)).2 P ((hf s).2 P h)⟩

theorem preserva_foldl {α : Type} (f : Estado → α → Estado)
    (hf : ∀ x, Preserva (fun s => f s x)) (l : List α) :
    Preserva (fun s => l.foldl f s) := by
  induction l with
  | nil => exact preserva_id
  | cons x l ih =>
    intro s
    simp only [List.foldl_cons]
    exact ⟨by rw [(ih (f s x)).1, (hf x s).1], fun P h => (ih (f s x)).2 P ((hf x s).2 P h)⟩

theorem preserva_ite (c : Estado → Prop) [DecidablePred c] (f g : Estado → Estado)
    (hf : Preserva f) (hg : Preserva g) : Preserva (fun s => if c s then f s else g s) := by
  intro s
  by_cases h : c s
  · simp only [if_pos h]; exact hf s
  · simp only [if_neg h]; exact hg s

theorem preserva_punto (f g : Estado → Estado) (s : Estado) (hg : Preserva g)
    (heq : f s = g s) :
    (f s).maxDevices = s.maxDevices ∧ ∀ P : Int → Int → Prop, Coherente P s → Coherente P (f s) := by
  rw [heq]
  exact hg s

theorem filaTrasLed_lt (x : Nat) (c : Int) (st : Bool) : filaTrasLed x c st < 256 := by
  unfold filaTrasLed
  split_ifs <;> exact Nat.mod_lt _ (by norm_num)

theorem preserva_setLed (a r c : Int) (st : Bool) : Preserva (fun s => setLed s a r c st) := by
  intro s
  by_cases h : a < 0 ∨ a ≥ s.maxDevices ∨ r < 0 ∨ r > 7 ∨ c < 0 ∨ c > 7
  · exact preserva_punto (fun s => setLed s a r c st) _ s preserva_id (setLed_fuera s a r c st h)
  · have hr : 0 ≤ r ∧ r ≤ 7 := by omega
    refine preserva_punto (fun s => setLed s a r c st) _ s
      (preserva_fila a r (fun s => filaTrasLed (s.status (a * 8 + r)) c st)
        (fun s => filaTrasLed_lt _ _ _) hr) ?_
    show setLed s a r c st = _
    unfold setLed filaTrasLed
    rw [if_neg (by omega), if_neg (by omega)]
    simp only [Function.update_same]

theorem preserva_setRow (a r : Int) (v : Nat) : Preserva (fun s => setRow s a r v) := by
  intro s
  by_cases h : a < 0 ∨ a ≥ s.maxDevices ∨ r < 0 ∨ r > 7
  · exact preserva_punto (fun s => setRow s a r v) _ s preserva_id (setRow_fuera s a r v h)
  · have hr : 0 ≤ r ∧ r ≤ 7 := by omega
    refine preserva_punto (fun s => setRow s a r v) _ s
      (preserva_fila a r (fun _ => v % 256) (fun _ => Nat.mod_lt _ (by norm_num)) hr) ?_
    show setRow s a r v = _
    unfold setRow
    rw [if_neg (by omega), if_neg (by omega)]
    simp only [Function.update_same]

theorem preserva_clearDisplayPaso (a : Int) (i : Nat) (hi : i < 8) :
    Preserva (fun s => clearDisplayPaso a s i) := by
  intro s
  refine preserva_punto (fun s => clearDisplayPaso a s i) _ s
    (preserva_fila a (i : Int) (fun _ => 0) (fun _ => by norm_num) (by omega)) ?_
  show clearDisplayPaso a s i = _
  unfold clearDisplayPaso
  simp only [Function.update_same]

theorem preserva_foldl_mem {α : Type} (f : Estado → α → Estado) (l : List α)
    (hf : ∀ x ∈ l, Preserva (fun s => f s x)) :
    Preserva (fun s => l.foldl f s) := by
  induction l with
  | nil => exact preserva_id
  | cons x l ih =>
    intro s
    simp only [List.foldl_cons]
    have hx := hf x (List.mem_cons_self x l)
    have ih' := ih (fun y hy => hf y (List.mem_cons_of_mem x hy))
    exact ⟨by rw [(ih' (f s x)).1, (hx s).1], fun P h => (ih' (f s x)).2 P ((hx s).2 P h)⟩

theorem preserva_clearDisplay (a : Int) : Preserva (fun s => clearDisplay s a) := by
  intro s
  by_cases h : a < 0 ∨ a ≥ s.maxDevices
  · exact preserva_punto (fun s => clearDisplay s a) _ s preserva_id (clearDisplay_fuera s a h)
  · refine preserva_punto (fun s => clearDisplay s a) _ s (preserva_foldl_mem (clearDisplayPaso a) (List.range 8)
      (fun i hi => preserva_clearDisplayPaso a i (List.mem_range.1 hi))) ?_
    show clearDisplay s a = _
    unfold clearDisplay
    rw [if_neg h]

theorem preserva_setColumn (a c : Int) (v : Nat) : Preserva (fun s => setColumn s a c v) := by
  intro s
  by_cases h : a < 0 ∨ a ≥ s.maxDevices ∨ c < 0 ∨ c > 7
  · exact preserva_punto (fun s => setColumn s a c v) _ s preserva_id (setColumn_fuera s a c v h)
  · refine preserva_punto (fun s => setColumn s a c v) _ s (preserva_foldl
      (fun st (row : Nat) => setLed st a (row : Int) c (bitRead (v % 256) row != 0))
      (fun row => preserva_setLed a (row : Int) c _) (List.range 8)) ?_
    show setColumn s a c v = _
    unfold setColumn
    rw [if_neg h]

theorem preserva_shutdown (a : Int) (b : Bool) : Preserva (fun s => shutdown s a b) := by
  intro s
  show (shutdown s a b).maxDevices = _ ∧ ∀ P, Coherente P s → Coherente P (shutdown s a b)
  unfold shutdown
  split_ifs
  · exact preserva_id s
  · exact preserva_spi_otro a OP_SHUTDOWN 0 (by decide) s
  · exact preserva_spi_otro a OP_SHUTDOWN 1 (by decide) s

theorem toByte_lt (x : Int) : toByte x < 256 := by
  unfold toByte
  omega

theorem preserva_setScanLimit (a l : Int) : Preserva (fun s => setScanLimit s a l) := by
  intro s
  show (setScanLimit s a l).maxDevices = _
    ∧ ∀ P, Coherente P s → Coherente P (setScanLimit s a l)
  unfold setScanLimit
  split_ifs
  · exact preserva_id s
  · exact preserva_spi_otro a OP_SCANLIMIT _ (by decide) s
  · exact preserva_id s

theorem preserva_setIntensity (a v : Int) : Preserva (fun s => setIntensity s a v) := by
  intro s
  show (setIntensity s a v).maxDevices = _
    ∧ ∀ P, Coherente P s → Coherente P (setIntensity s a v)
  unfold setIntensity
  split_ifs
  · exact preserva_id s
  · exact preserva_spi_otro a OP_INTENSITY _ (by decide) s
  · exact preserva_id s

theorem preserva_paraCada (cuerpo : Estado → Int → Estado)
    (h : ∀ a, Preserva (fun s => cuerpo s a)) (n : Estado → Int) :
    Preserva (fun s => paraCada (n s) cuerpo s) := by
  intro s
  exact preserva_foldl (fun st (a : Nat) => cuerpo st (a : Int)) (fun a => h a) _ s

theorem preserva_borrar : Preserva borrar :=
  preserva_paraCada _ (fun a => preserva_clearDisplay a) _

theorem preserva_setIntensidad (v : Int) : Preserva (fun s => setIntensidad s v) :=
  preserva_paraCada _ (fun a => preserva_setIntensity a v) _

theorem preserva_apagar : Preserva apagar :=
  preserva_paraCada _ (fun a => preserva_shutdown a true) _

theorem preserva_encender : Preserva encender :=
  preserva_paraCada _ (fun a => preserva_shutdown a false) _

theorem preserva_bucle1 (copia : List Nat) :
    ∀ (is : List Nat) (a q : Int), Preserva (fun s => escribirBitsBucle1 copia is a q s) := by
  intro is
  induction is with
  | nil => intro a q; exact preserva_id
  | cons i resto ih =>
    intro a q s
    show (escribirBitsBucle1 copia (i :: resto) a q s).maxDevices = _
      ∧ ∀ P, Coherente P s → Coherente P (escribirBitsBucle1 copia (i :: resto) a q s)
    unfold escribirBitsBucle1
    by_cases h : a > s.maxDevices - 1
    · rw [if_pos h]; exact preserva_id s
    · rw [if_neg h]
      by_cases hq : q = 7
      · simp only [if_pos hq]
        exact preserva_comp _ _ (preserva_setColumn a q (leer copia i)) (ih (a + 1) 0) s
      · simp only [if_neg hq]
        exact preserva_comp _ _ (preserva_setColumn a q (leer copia i)) (ih a (q + 1)) s

theorem preserva_bucle0 (copia : List Nat) :
    ∀ (is : List Nat) (a q : Int), Preserva (fun s => escribirBitsBucle0 copia is a q s) := by
  intro is
  induction is with
  | nil => intro a q; exact preserva_id
  | cons i resto ih =>
    intro a q s
    show (escribirBitsBucle0 copia (i :: resto) a q s).maxDevices = _
      ∧ ∀ P, Coherente P s → Coherente P (escribirBitsBucle0 copia (i :: resto) a q s)
    unfold escribirBitsBucle0
    by_cases h : a > s.maxDevices - 1
    · rw [if_pos h]; exact preserva_id s
    · rw [if_neg h]
      by_cases hq : q = 0
      · simp only [if_pos hq]
        exact preserva_comp _ _ (preserva_setColumn a q (leer copia i)) (ih (a + 1) 7) s
      · simp only [if_neg hq]
        exact preserva_comp _ _ (preserva_setColumn a q (leer copia i)) (ih a (q - 1)) s

theorem preserva_escribirBits (codigo : List Nat) (p : Int) :
    Preserva (fun s => escribirBits s codigo p) := by
  intro s
  show (escribirBits s codigo p).maxDevices = _
    ∧ ∀ P, Coherente P s → Coherente P (escribirBits s codigo p)
  unfold escribirBits
  simp only
  split_ifs
  · exact preserva_bucle0 _ _ _ _ s
  · exact preserva_bucle1 _ _ _ _ s
  · exact preserva_id s

theorem preserva_escribirCaracter (e : Entorno) (ch p : Int) :
    Preserva (fun s => escribirCaracter e s ch p) :=
  preserva_escribirBits _ p

theorem preserva_escribirFrase (e : Entorno) (frase : List Int) (p : Int) :
    Preserva (fun s => escribirFrase e s frase p) :=
  preserva_foldl _ (fun _ => preserva_escribirCaracter e _ _) _

theorem preserva_escribirFraseCompacta (e : Entorno) (frase : List Int) (p : Int) :
    Preserva (fun s => escribirFraseCompacta e s frase p) :=
  preserva_comp _ _ (preserva_escribirCaracter e _ _)
    (preserva_foldl _ (fun _ => preserva_escribirCaracter e _ _) _)

theorem preserva_delay (pausa : Nat) : Preserva (fun s => delay s pausa) :=
  fun _ => ⟨rfl, fun _ h => h⟩

theorem preserva_setModelo (m : Int) : Preserva (fun s => setModelo s m) :=
  fun _ => ⟨rfl, fun _ h => h⟩

theorem preserva_escribirFraseScroll (e : Entorno) (frase : List Int) (pausa : Nat) :
    Preserva (fun s => escribirFraseScroll e s frase pausa) := by
  intro s
  exact preserva_foldl (fun st (k : Nat) =>
      delay (escribirFrase e st frase (s.maxDevices * 8 - (k : Int))) pausa)
    (fun k => preserva_comp _ _ (preserva_escribirFrase e frase _) (preserva_delay pausa)) _ s

theorem preserva_escribirFraseCompactaScroll (e : Entorno) (frase : List Int) (pausa : Nat) :
    Preserva (fun s => escribirFraseCompactaScroll e s frase pausa) := by
  intro s
  exact preserva_foldl (fun st (k : Nat) =>
      delay (escribirFraseCompacta e st frase (s.maxDevices * 8 - (k : Int))) pausa)
    (fun k => preserva_comp _ _ (preserva_escribirFraseCompacta e frase _)
      (preserva_delay pausa)) _ s

theorem preserva_escribirCifra (e : Entorno) (s s1 : Estado) (cifra p : Int)
    (h : escribirCifra e s cifra p = some s1) :
    s1.maxDevices = s.maxDevices ∧ ∀ P : Int → Int → Prop, Coherente P s → Coherente P s1 := by
  unfold escribirCifra at h
  simp only at h
  split_ifs at h
  cases h
  exact preserva_escribirFrase e (e.dtostrf cifra s.maxDevices 0) p s

theorem coherente_mono_rango (P Q : Int → Int → Prop) (s : Estado)
    (hPQ : ∀ m r : Int, Q m r → 0 ≤ m → m < s.maxDevices → 0 ≤ r → r ≤ 7 → P m r)
    (h : Coherente P s) : Coherente Q s :=
  fun m r hQ hm0 hmn hr0 hr7 => h m r (hPQ m r hQ hm0 hmn hr0 hr7) hm0 hmn hr0 hr7

theorem clearDisplay_filas (P : Int → Int → Prop) (s : Estado) (a : Int) (h : Coherente P s) :
    ∀ k : Nat, k ≤ 8 →
      ((List.range k).foldl (clearDisplayPaso a) s).maxDevices = s.maxDevices
        ∧ Coherente (fun m r => P m r ∨ (m = a ∧ r < k))
            ((List.range k).foldl (clearDisplayPaso a) s) := by
  intro k
  induction k with
  | zero =>
    intro _
    exact ⟨rfl, coherente_mono_rango P _ s
      (fun m r hQ _ _ hr0 _ => hQ.elim id (fun h2 => absurd h2.2 (by push_cast; omega))) h⟩
  | succ k ih =>
    intro hk
    obtain ⟨h1, h2⟩ := ih (by omega)
    rw [List.range_succ, List.foldl_append]
    simp only [List.foldl_cons, List.foldl_nil]
    have hpaso : ∀ S : Estado, clearDisplayPaso a S k
        = spiTransfer { S with status := Function.update S.status (a * 8 + (k : Int)) 0 } a
            (toByte ((k : Int) + 1)) 0 := by
      intro S
      unfold clearDisplayPaso
      simp only [Function.update_same]
    rw [hpaso]
    refine ⟨h1, ?_⟩
    refine coherente_mono_rango _ _ _ ?_
      (coherente_fila _ _ a (k : Int) 0 (by norm_num) (by omega) h2)
    intro m r hQ _ _ _ _
    rcases hQ with hQ | ⟨hQ1, hQ2⟩
    · exact Or.inl (Or.inl hQ)
    · by_cases hrk : r = k
      · exact Or.inr ⟨hQ1, hrk⟩
      · exact Or.inl (Or.inr ⟨hQ1, by push_cast at hQ2; omega⟩)

theorem clearDisplay_establece (P : Int → Int → Prop) (s : Estado) (a : Int)
    (ha : 0 ≤ a ∧ a < s.maxDevices) (h : Coherente P s) :
    Coherente (fun m r => P m r ∨ m = a) (clearDisplay s a) := by
  unfold clearDisplay
  rw [if_neg (by omega)]
  obtain ⟨h1, h2⟩ := clearDisplay_filas P s a h 8 (le_refl 8)
  refine coherente_mono_rango _ _ _ ?_ h2
  intro m r hQ _ _ _ hr7
  rcases hQ with hQ | hQ
  · exact Or.inl hQ
  · exact Or.inr ⟨hQ, by push_cast; omega⟩

theorem borrar_modulos (s : Estado) :
    ∀ k : Nat, (k : Int) ≤ s.maxDevices →
      ((List.range k).foldl (fun st (a : Nat) => clearDisplay st (a : Int)) s).maxDevices
          = s.maxDevices
        ∧ Coherente (fun m _ => m < k)
            ((List.range k).foldl (fun st (a : Nat) => clearDisplay st (a : Int)) s) := by
  intro k
  induction k with
  | zero =>
    intro _
    exact ⟨rfl, fun m r hP hm0 _ _ _ => absurd hP (by push_cast; omega)⟩
  | succ k ih =>
    intro hk
    obtain ⟨h1, h2⟩ := ih (by push_cast at hk; omega)
    rw [List.range_succ, List.foldl_append]
    simp only [List.foldl_cons, List.foldl_nil]
    refine ⟨by rw [(preserva_clearDisplay (k : Int) _).1, h1], ?_⟩
    refine coherente_mono_rango _ _ _ ?_
      (clearDisplay_establece _ _ (k : Int) (by rw [h1]; push_cast at hk; omega) h2)
    intro m r hQ _ _ _ _
    by_cases hmk : m = k
    · exact Or.inr hmk
    · exact Or.inl (by push_cast at hQ; omega)

theorem borrar_establece (s : Estado) : Coherente (fun _ _ => True) (borrar s) := by
  by_cases hn : 0 ≤ s.maxDevices
  · unfold borrar paraCada
    obtain ⟨h1, h2⟩ := borrar_modulos s s.maxDevices.toNat (by omega)
    refine coherente_mono_rango _ _ _ ?_ h2
    intro m r _ _ hmn _ _
    rw [h1] at hmn
    omega
  · intro m r _ hm0 hmn _ _
    rw [(preserva_borrar s).1] at hmn
    omega

theorem begin_establece (s : Estado) (dataPin clkPin csPin numDevices : Int) :
    Coherente (fun _ _ => True) (begin s dataPin clkPin csPin numDevices) := by
  unfold begin
  exact borrar_establece _

/-! ## Scroll -/

theorem pausasDe_append (a b : List Evento) : pausasDe (a ++ b) = pausasDe a ++ pausasDe b := by
  simp [pausasDe, List.filterMap_append]

theorem pausasDe_shiftOut (d c : Int) (bs : List Nat) :
    pausasDe (bs.map (Evento.shiftOut d c true)) = [] := by
  induction bs with
  | nil => rfl
  | cons b bs ih =>
    simp only [List.map_cons]
    show pausasDe ([Evento.shiftOut d c true b] ++ bs.map (Evento.shiftOut d c true)) = []
    rw [pausasDe_append, ih]
    rfl

theorem sinPausa_spiTransfer (addr : Int) (opcode data : Nat) :
    SinPausa (fun s => spiTransfer s addr opcode data) := by
  intro s
  show pausasDe (spiTransfer s addr opcode data).traza = pausasDe s.traza
  unfold spiTransfer
  simp only [pausasDe_append, pausasDe_shiftOut]
  simp [pausasDe]

theorem sinPausa_id : SinPausa (fun s => s) := fun _ => rfl

theorem sinPausa_comp (f g : Estado → Estado) (hf : SinPausa f) (hg : SinPausa g) :
    SinPausa (fun s => g (f s)) := fun s => (hg (f s)).trans (hf s)

theorem sinPausa_foldl {α : Type} (f : Estado → α → Estado) (hf : ∀ a, SinPausa (fun s => f s a))
    (l : List α) : SinPausa (fun s => l.foldl f s) := by
  induction l with
  | nil => exact sinPausa_id
  | cons a l ih =>
    intro s
    show pausas (l.foldl f (f s a)) = pausas s
    rw [ih (f s a)]
    exact hf a s

theorem sinPausa_setLed (a r c : Int) (st : Bool) : SinPausa (fun s => setLed s a r c st) := by
  intro s
  show pausas (setLed s a r c st) = pausas s
  unfold setLed
  split_ifs
  · rfl
  · rfl
  · exact sinPausa_spiTransfer _ _ _ _
  · exact sinPausa_spiTransfer _ _ _ _

theorem sinPausa_setColumn (a c : Int) (v : Nat) : SinPausa (fun s => setColumn s a c v) := by
  intro s
  show pausas (setColumn s a c v) = pausas s
  unfold setColumn
  split_ifs
  · rfl
  · exact sinPausa_foldl _ (fun (row : Nat) => sinPausa_setLed a (row : Int) c _) _ s

theorem sinPausa_bucle1 (copia : List Nat) :
    ∀ (is : List Nat) (a q : Int), SinPausa (fun s => escribirBitsBucle1 copia is a q s) := by
  intro is
  induction is with
  | nil => intro a q; exact sinPausa_id
  | cons i resto ih =>
    intro a q s
    show pausas (escribirBitsBucle1 copia (i :: resto) a q s) = pausas s
    unfold escribirBitsBucle1
    split_ifs
    · rfl
    · exact sinPausa_comp _ _ (sinPausa_setColumn a q (leer copia i)) (ih (a + 1) 0) s
    · exact sinPausa_comp _ _ (sinPausa_setColumn a q (leer copia i)) (ih a (q + 1)) s

theorem sinPausa_bucle0 (copia : List Nat) :
    ∀ (is : List Nat) (a q : Int), SinPausa (fun s => escribirBitsBucle0 copia is a q s) := by
  intro is
  induction is with
  | nil => intro a q; exact sinPausa_id
  | cons i resto ih =>
    intro a q s
    show pausas (escribirBitsBucle0 copia (i :: resto) a q s) = pausas s
    unfold escribirBitsBucle0
    split_ifs
    · rfl
    · exact sinPausa_comp _ _ (sinPausa_setColumn a q (leer copia i)) (ih (a + 1) 7) s
    · exact sinPausa_comp _ _ (sinPausa_setColumn a q (leer copia i)) (ih a (q - 1)) s

theorem sinPausa_escribirBits (codigo : List Nat) (p : Int) :
    SinPausa (fun s => escribirBits s codigo p) := by
  intro s
  show pausas (escribirBits s codigo p) = pausas s
  unfold escribirBits
  simp only
  split_ifs
  · exact sinPausa_bucle0 _ _ _ _ s
  · exact sinPausa_bucle1 _ _ _ _ s
  · rfl

theorem sinPausa_escribirFrase (e : Entorno) (frase : List Int) (p : Int) :
    SinPausa (fun s => escribirFrase e s frase p) :=
  sinPausa_foldl _ (fun _ => sinPausa_escribirBits _ _) _

theorem pausas_delay (s : Estado) (pausa : Nat) : pausas (delay s pausa) = pausas s ++ [pausa] := by
  show pausasDe (s.traza ++ [Evento.delay pausa]) = pausasDe s.traza ++ [pausa]
  rw [pausasDe_append]
  rfl

theorem pausas_pasos (f : Estado → Int → Estado) (hf : ∀ p, SinPausa (fun s => f s p))
    (pausa : Nat) (l : List Int) (s : Estado) :
    pausas (l.foldl (fun st p => delay (f st p) pausa) s)
      = pausas s ++ List.replicate l.length pausa := by
  induction l generalizing s with
  | nil => simp
  | cons p l ih =>
    rw [List.foldl_cons, ih, pausas_delay, hf p s, List.length_cons, List.replicate_succ]
    simp

theorem posicionesScroll_length (n : Int) (L : Nat) (hn : 0 ≤ n) :
    ((posicionesScroll n L).length : Int) = 8 * (n + (L : Int)) := by
  unfold posicionesScroll descendente
  rw [List.length_map, List.length_range]
  omega

theorem posicionesScroll_getD (n : Int) (L : Nat) (k : Nat) (hk : (k : Int) < 8 * (n + (L : Int))) :
    (posicionesScroll n L).getD k 0 = 8 * n - (k : Int) := by
  unfold posicionesScroll descendente
  rw [List.getD_eq_getElem _ _ (by rw [List.length_map, List.length_range]; omega)]
  simp

theorem escribirFraseScroll_fold (e : Entorno) (s : Estado) (frase : List Int) (pausa : Nat) :
    escribirFraseScroll e s frase pausa
      = (posicionesScroll s.maxDevices frase.length).foldl
          (fun st p => delay (escribirFrase e st frase p) pausa) s := by
  unfold escribirFraseScroll posicionesScroll descendente
  rw [List.foldl_map]
  have h1 : (8 * s.maxDevices - (-(8 * (frase.length : Int)) + 1) + 1).toNat
      = (s.maxDevices * 8 + (frase.length : Int) * 8).toNat := by
    congr 1
    ring
  rw [h1]
  have h2 : ∀ k : Nat, s.maxDevices * 8 - (k : Int) = 8 * s.maxDevices - (k : Int) := by
    intro k
    ring
  simp only [h2]

/-- C11: on a chain of n modules, `escribirFraseScroll` of a text of L characters with pause
d is the sequence of steps "escribirFrase(text, p), then delay(d)" for p = 8n, 8n-1, ...,
-(8L)+1 in that order: exactly 8(n+L) steps, step k at position 8n-k, and exactly 8(n+L)
pauses of d are performed. -/
theorem escribirFraseScroll_pasos (e : Entorno) (s : Estado) (frase : List Int) (pausa : Nat)
    (hn : 0 ≤ s.maxDevices) :
    escribirFraseScroll e s frase pausa
        = (posicionesScroll s.maxDevices frase.length).foldl
            (fun st p => delay (escribirFrase e st frase p) pausa) s
      ∧ ((posicionesScroll s.maxDevices frase.length).length : Int)
          = 8 * (s.maxDevices + (frase.length : Int))
      ∧ (∀ k : Nat, (k : Int) < 8 * (s.maxDevices + (frase.length : Int)) →
          (posicionesScroll s.maxDevices frase.length).getD k 0 = 8 * s.maxDevices - (k : Int))
      ∧ pausas (escribirFraseScroll e s frase pausa)
          = pausas s ++ List.replicate (8 * (s.maxDevices + (frase.length : Int))).toNat pausa := by
  refine ⟨escribirFraseScroll_fold e s frase pausa, posicionesScroll_length _ _ hn,
    fun k hk => posicionesScroll_getD _ _ k hk, ?_⟩
  rw [escribirFraseScroll_fold,
    pausas_pasos (fun st p => escribirFrase e st frase p)
      (fun p => sinPausa_escribirFrase e frase p) pausa]
  congr 2
  have h := posicionesScroll_length s.maxDevices frase.length hn
  omega

/-- Witness of C11: the text "HI" on one module with a pause of 10 ms, 24 steps from
position 8 down to -15. -/
theorem escribirFraseScroll_pasos_witness :
    posicionesScroll (enBlanco 1 0).maxDevices [72, 73].length
        = [8, 7, 6, 5, 4, 3, 2, 1, 0, -1, -2, -3, -4, -5, -6, -7, -8, -9, -10, -11, -12, -13,
            -14, -15]
      ∧ (escribirFraseScroll entornoEjemplo (enBlanco 1 0) [72, 73] 10
        = (posicionesScroll (enBlanco 1 0).maxDevices [72, 73].length).foldl
            (fun st p => delay (escribirFrase entornoEjemplo st [72, 73] p) 10) (enBlanco 1 0)
      ∧ ((posicionesScroll (enBlanco 1 0).maxDevices [72, 73].length).length : Int)
          = 8 * ((enBlanco 1 0).maxDevices + (([72, 73] : List Int).length : Int))
      ∧ (∀ k : Nat, (k : Int) < 8 * ((enBlanco 1 0).maxDevices + (([72, 73] : List Int).length : Int)) →
          (posicionesScroll (enBlanco 1 0).maxDevices [72, 73].length).getD k 0
            = 8 * (enBlanco 1 0).maxDevices - (k : Int))
      ∧ pausas (escribirFraseScroll entornoEjemplo (enBlanco 1 0) [72, 73] 10)
          = pausas (enBlanco 1 0) ++ List.replicate
              (8 * ((enBlanco 1 0).maxDevices + (([72, 73] : List Int).length : Int))).toNat 10) :=
  ⟨by decide, escribirFraseScroll_pasos entornoEjemplo (enBlanco 1 0) [72, 73] 10 (by decide)⟩

/-! ## Glyph lookup -/

theorem obtenerSecuenciaTabla_consecutivos (t : List Nat) (pos : Int) (h0 : 0 ≤ pos)
    (hlen : pos.toNat + 8 ≤ t.length) (hb : ∀ x ∈ t, x < 256) :
    obtenerSecuenciaTabla t pos = (t.drop pos.toNat).take 8 := by
  unfold obtenerSecuenciaTabla
  apply List.ext_getElem
  · rw [List.length_map, List.length_range, List.length_take, List.length_drop]
    omega
  · intro i h1 h2
    rw [List.length_map, List.length_range] at h1
    have hi : ((i : Int) + pos).toNat = pos.toNat + i := by omega
    have hlt : pos.toNat + i < t.length := by omega
    simp only [List.getElem_map, List.getElem_range, List.getElem_take, List.getElem_drop, hi]
    rw [List.getD_eq_getElem _ _ hlt]
    exact Nat.mod_eq_of_lt (hb _ (List.getElem_mem hlt))

theorem entornoEjemplo_completo : TablasCompletas entornoEjemplo := by
  refine ⟨⟨by simp [entornoEjemplo], ?_⟩, ⟨by simp [entornoEjemplo], ?_⟩,
    ⟨by simp [entornoEjemplo], ?_⟩⟩
  all_goals
    intro x hx
    simp only [entornoEjemplo, List.mem_map] at hx
    obtain ⟨i, _, rfl⟩ := hx
    exact Nat.mod_lt _ (by norm_num)

/-- C12: glyph lookup equals its reference definition for every character (space: all
zeros; a letter or digit: the 8 consecutive bytes of the table of its range from index
`(code - rangeStart) * 8`; anything else: the fixed fallback pattern), it always yields
8 bytes, and any two unrecognised characters get the same pattern. -/
theorem obtenerBitsCaracter_referencia (e : Entorno) (h : TablasCompletas e) (c : Int) :
    obtenerBitsCaracter e c = lookupReferencia e c
      ∧ (obtenerBitsCaracter e c).length = 8
      ∧ (¬ Reconocido c → obtenerBitsCaracter e c = [0x00, 0x08, 0x2A, 0x1C, 0x77, 0x1C, 0x2A, 0x08])
      ∧ (∀ c2 : Int, ¬ Reconocido c → ¬ Reconocido c2 →
          obtenerBitsCaracter e c = obtenerBitsCaracter e c2) := by
  obtain ⟨⟨hA, hAb⟩, ⟨ha, hab⟩, ⟨hd, hdb⟩⟩ := h
  have hfall : ∀ x : Int, ¬ Reconocido x → obtenerBitsCaracter e x = asterisco := by
    intro x hx
    unfold Reconocido at hx
    unfold obtenerBitsCaracter
    rw [if_neg (by tauto), if_neg (by omega), if_neg (by omega), if_neg (by omega)]
  refine ⟨?_, obtenerBitsCaracter_length e c, fun hc => hfall c hc,
    fun c2 hc hc2 => (hfall c hc).trans (hfall c2 hc2).symm⟩
  unfold obtenerBitsCaracter lookupReferencia
  by_cases h1 : c = 32
  · rw [if_pos h1, if_pos h1]
    rfl
  · rw [if_neg h1, if_neg h1]
    by_cases h2 : 65 ≤ c ∧ c ≤ 90
    · rw [if_pos (by omega), if_pos h2]
      exact obtenerSecuenciaTabla_consecutivos _ _ (by omega) (by omega) hAb
    · rw [if_neg (by omega), if_neg h2]
      by_cases h3 : 97 ≤ c ∧ c ≤ 122
      · rw [if_pos (by omega), if_pos h3]
        exact obtenerSecuenciaTabla_consecutivos _ _ (by omega) (by omega) hab
      · rw [if_neg (by omega), if_neg h3]
        by_cases h4 : 48 ≤ c ∧ c ≤ 57
        · rw [if_pos (by omega), if_pos h4]
          exact obtenerSecuenciaTabla_consecutivos _ _ (by omega) (by omega) hdb
        · rw [if_neg (by omega), if_neg h4]
          rfl

/-- Witness of C12: the letter `C` in the example tables. -/
theorem obtenerBitsCaracter_referencia_witness :
    TablasCompletas entornoEjemplo
      ∧ (obtenerBitsCaracter entornoEjemplo 67 = lookupReferencia entornoEjemplo 67
      ∧ (obtenerBitsCaracter entornoEjemplo 67).length = 8
      ∧ (¬ Reconocido 67 →
          obtenerBitsCaracter entornoEjemplo 67 = [0x00, 0x08, 0x2A, 0x1C, 0x77, 0x1C, 0x2A, 0x08])
      ∧ (∀ c2 : Int, ¬ Reconocido 67 → ¬ Reconocido c2 →
          obtenerBitsCaracter entornoEjemplo 67 = obtenerBitsCaracter entornoEjemplo c2)) :=
  ⟨entornoEjemplo_completo,
    obtenerBitsCaracter_referencia entornoEjemplo entornoEjemplo_completo 67⟩

/-! ## Start-up sequence -/

theorem paraCada_emite (n : Int) (Q : Estado → Prop) (cuerpo : Estado → Int → Estado)
    (g : Int → List Escritura)
    (h : ∀ st a, 0 ≤ a → a < n → Q st →
      Q (cuerpo st a) ∧ (cuerpo st a).escrituras = st.escrituras ++ g a)
    (s : Estado) (hs : Q s) :
    ∀ k : Nat, (k : Int) ≤ n →
      Q ((List.range k).foldl (fun st (a : Nat) => cuerpo st (a : Int)) s)
        ∧ ((List.range k).foldl (fun st (a : Nat) => cuerpo st (a : Int)) s).escrituras
            = s.escrituras ++ porModulo k g := by
  intro k
  induction k with
  | zero =>
    intro _
    exact ⟨hs, by simp [porModulo]⟩
  | succ k ih =>
    intro hk
    obtain ⟨h1, h2⟩ := ih (by push_cast at hk; omega)
    obtain ⟨h3, h4⟩ := h _ (k : Int) (by omega) (by push_cast at hk; omega) h1
    unfold porModulo at h2 ⊢
    rw [List.range_succ, List.foldl_append, List.foldl_append]
    simp only [List.foldl_cons, List.foldl_nil]
    exact ⟨h3, by rw [h4, h2, List.append_assoc]⟩

theorem toByte_fila_opcode (i : Nat) (hi : i < 8) :
    (toByte ((i : Int) + 1) % 256 : Nat) = i + 1 := by
  unfold toByte
  omega

theorem clearDisplayPaso_escrituras (a : Int) (st : Estado) (i : Nat) :
    (clearDisplayPaso a st i).escrituras
      = st.escrituras ++ [⟨a, toByte ((i : Int) + 1) % 256, 0⟩] := by
  unfold clearDisplayPaso
  simp

theorem clearDisplayPaso_enCero (n a : Int) (st : Estado) (i : Nat) (h : EnCero n st) :
    EnCero n (clearDisplayPaso a st i) := by
  refine ⟨h.1, fun j hj0 hj => ?_⟩
  unfold clearDisplayPaso
  simp only [spiTransfer_status]
  by_cases hji : j = a * 8 + (i : Int)
  · rw [hji, Function.update_same]
  · rw [Function.update_noteq hji]
    exact h.2 j hj0 hj

theorem clearDisplay_emite (n : Int) (st : Estado) (a : Int) (h0 : 0 ≤ a) (hn : a < n)
    (h : EnCero n st) :
    EnCero n (clearDisplay st a) ∧ (clearDisplay st a).escrituras = st.escrituras ++ borradoFilas a := by
  have hd : ¬ (a < 0 ∨ a ≥ st.maxDevices) := by rw [h.1]; omega
  unfold clearDisplay
  rw [if_neg hd]
  have key : ∀ k : Nat, k ≤ 8 →
      EnCero n ((List.range k).foldl (clearDisplayPaso a) st)
        ∧ ((List.range k).foldl (clearDisplayPaso a) st).escrituras
            = st.escrituras ++ (List.range k).map (fun (r : Nat) => (⟨a, r + 1, 0⟩ : Escritura)) := by
    intro k
    induction k with
    | zero => intro _; exact ⟨h, by simp⟩
    | succ k ih =>
      intro hk
      obtain ⟨h1, h2⟩ := ih (by omega)
      rw [List.range_succ, List.foldl_append, List.map_append]
      simp only [List.foldl_cons, List.foldl_nil, List.map_cons, List.map_nil]
      refine ⟨clearDisplayPaso_enCero n a _ k h1, ?_⟩
      rw [clearDisplayPaso_escrituras, h2, toByte_fila_opcode k (by omega), List.append_assoc]
  exact key 8 (le_refl 8)

theorem shutdown_emite (n : Int) (st : Estado) (a : Int) (b : Bool) (h0 : 0 ≤ a) (hn : a < n)
    (h : EnCero n st) :
    EnCero n (shutdown st a b)
      ∧ (shutdown st a b).escrituras = st.escrituras ++ [⟨a, 12, if b then 0 else 1⟩] := by
  have hd : ¬ (a < 0 ∨ a ≥ st.maxDevices) := by rw [h.1]; omega
  unfold shutdown
  rw [if_neg hd]
  cases b
  · exact ⟨h, by simp [OP_SHUTDOWN]⟩
  · exact ⟨h, by simp [OP_SHUTDOWN]⟩

theorem setIntensity_emite (n : Int) (st : Estado) (a v : Int) (h0 : 0 ≤ a) (hn : a < n)
    (hv : 0 ≤ v ∧ v ≤ 15) (h : EnCero n st) :
    EnCero n (setIntensity st a v)
      ∧ (setIntensity st a v).escrituras = st.escrituras ++ [⟨a, 10, v.toNat⟩] := by
  have hd : ¬ (a < 0 ∨ a ≥ st.maxDevices) := by rw [h.1]; omega
  have hb : toByte v % 256 = v.toNat := by unfold toByte; omega
  unfold setIntensity
  rw [if_neg hd, if_pos (by omega)]
  exact ⟨h, by simp [OP_INTENSITY, hb]⟩

theorem setScanLimit_emite (n : Int) (st : Estado) (a v : Int) (h0 : 0 ≤ a) (hn : a < n)
    (hv : 0 ≤ v ∧ v ≤ 7) (h : EnCero n st) :
    EnCero n (setScanLimit st a v)
      ∧ (setScanLimit st a v).escrituras = st.escrituras ++ [⟨a, 11, v.toNat⟩] := by
  have hd : ¬ (a < 0 ∨ a ≥ st.maxDevices) := by rw [h.1]; omega
  have hb : toByte v % 256 = v.toNat := by unfold toByte; omega
  unfold setScanLimit
  rw [if_neg hd, if_pos (by omega)]
  exact ⟨h, by simp [OP_SCANLIMIT, hb]⟩

theorem spiTransfer_enCero (n : Int) (st : Estado) (a : Int) (o d : Nat) (h : EnCero n st) :
    EnCero n (spiTransfer st a o d) := h

theorem beginPaso_emite (n : Int) (st : Estado) (a : Int) (h0 : 0 ≤ a) (hn : a < n)
    (h : EnCero n st) :
    EnCero n (beginPaso st a)
      ∧ (beginPaso st a).escrituras
          = st.escrituras ++ ([⟨a, 15, 0⟩, ⟨a, 11, 7⟩, ⟨a, 9, 0⟩] ++ borradoFilas a) := by
  unfold beginPaso
  have h1 := spiTransfer_enCero n st a OP_DISPLAYTEST 0 h
  obtain ⟨h2, e2⟩ := setScanLimit_emite n _ a 7 h0 hn (by omega) h1
  have h3 := spiTransfer_enCero n _ a OP_DECODEMODE 0 h2
  obtain ⟨h4, e4⟩ := clearDisplay_emite n _ a h0 hn h3
  refine ⟨h4, ?_⟩
  rw [e4, spiTransfer_escrituras, e2, spiTransfer_escrituras]
  simp [OP_DISPLAYTEST, OP_DECODEMODE]

theorem limpiarStatus_apply (a : Int → Nat) (i : Int) :
    limpiarStatus a i = if 0 ≤ i ∧ i < 64 then 0 else a i := by
  unfold limpiarStatus
  have key : ∀ m : Nat, (List.range m).foldl (fun a (i : Nat) => Function.update a (i : Int) 0) a i
      = if 0 ≤ i ∧ i < (m : Int) then 0 else a i := by
    intro m
    induction m with
    | zero =>
      rw [if_neg (by omega)]
      rfl
    | succ m ih =>
      rw [List.range_succ, List.foldl_append]
      simp only [List.foldl_cons, List.foldl_nil]
      by_cases h : i = (m : Int)
      · subst h
        rw [Function.update_same, if_pos (by omega)]
      · rw [Function.update_noteq h, ih]
        by_cases h2 : 0 ≤ i ∧ i < (m : Int)
        · rw [if_pos h2, if_pos (by omega)]
        · rw [if_neg h2, if_neg (by omega)]
  exact key 64

theorem paraCada_enCero (n : Int) (hn0 : 0 ≤ n) (cuerpo : Estado → Int → Estado)
    (g : Int → List Escritura)
    (h : ∀ st a, 0 ≤ a → a < n → EnCero n st →
      EnCero n (cuerpo st a) ∧ (cuerpo st a).escrituras = st.escrituras ++ g a)
    (s : Estado) (hs : EnCero n s) :
    EnCero n (paraCada s.maxDevices cuerpo s)
      ∧ (paraCada s.maxDevices cuerpo s).escrituras = s.escrituras ++ porModulo n.toNat g := by
  unfold paraCada
  rw [hs.1]
  exact paraCada_emite n (EnCero n) cuerpo g h s hs n.toNat (by omega)

theorem porModulo_length (c : Nat) (g : Int → List Escritura) (hg : ∀ i, (g i).length = c) :
    ∀ k : Nat, (porModulo k g).length = k * c := by
  intro k
  unfold porModulo
  induction k with
  | zero => simp
  | succ k ih =>
    rw [List.range_succ, List.foldl_append]
    simp only [List.foldl_cons, List.foldl_nil, List.length_append]
    rw [ih, hg]
    ring

theorem secuenciaInicio_length (n : Nat) : (secuenciaInicio n).length = 22 * n := by
  unfold secuenciaInicio
  simp only [List.length_append]
  rw [porModulo_length 11
      (fun i => [(⟨i, 15, 0⟩ : Escritura), ⟨i, 11, 7⟩, ⟨i, 9, 0⟩] ++ borradoFilas i)
      (fun i => by simp [borradoFilas]) n,
    porModulo_length 1 (fun a => [(⟨a, 12, 0⟩ : Escritura)]) (fun _ => rfl) n,
    porModulo_length 1 (fun a => [(⟨a, 10, 6⟩ : Escritura)]) (fun _ => rfl) n,
    porModulo_length 1 (fun a => [(⟨a, 12, 1⟩ : Escritura)]) (fun _ => rfl) n,
    porModulo_length 8 borradoFilas (fun i => by simp [borradoFilas]) n]
  ring

theorem begin_forma (s : Estado) (dataPin clkPin csPin n : Int) (hn : 1 ≤ n ∧ n ≤ 8) :
    begin s dataPin clkPin csPin n
      = borrar (encender (setIntensidad (apagar (paraCada n beginPaso
          { s with SPI_MOSI := dataPin, SPI_CLK := clkPin, SPI_CS := csPin, maxDevices := n,
                   traza := s.traza ++ [Evento.pinModeOutput dataPin, Evento.pinModeOutput clkPin,
                     Evento.pinModeOutput csPin, Evento.digitalWrite csPin true],
                   status := limpiarStatus s.status })) 6)) := by
  have hc : ¬ (n ≤ 0 ∨ n > 8) := by omega
  unfold begin
  simp only [if_neg hc]

theorem begin_emite (s : Estado) (dataPin clkPin csPin n : Int) (hn : 1 ≤ n ∧ n ≤ 8) :
    EnCero n (begin s dataPin clkPin csPin n)
      ∧ (begin s dataPin clkPin csPin n).escrituras = s.escrituras ++ secuenciaInicio n.toNat := by
  have hn0 : 0 ≤ n := by omega
  rw [begin_forma s dataPin clkPin csPin n hn]
  have h3 : EnCero n
      { s with SPI_MOSI := dataPin, SPI_CLK := clkPin, SPI_CS := csPin, maxDevices := n,
               traza := s.traza ++ [Evento.pinModeOutput dataPin, Evento.pinModeOutput clkPin,
                 Evento.pinModeOutput csPin, Evento.digitalWrite csPin true],
               status := limpiarStatus s.status } :=
    ⟨rfl, fun i h0 h64 => by
      show limpiarStatus s.status i = 0
      rw [limpiarStatus_apply, if_pos ⟨h0, h64⟩]⟩
  obtain ⟨h4, e4⟩ := paraCada_enCero n hn0 beginPaso _ (beginPaso_emite n) _ h3
  obtain ⟨h5, e5⟩ := paraCada_enCero n hn0 (fun st a => shutdown st a true) _
    (fun st a h0 hlt hst => shutdown_emite n st a true h0 hlt hst) _ h4
  obtain ⟨h6, e6⟩ := paraCada_enCero n hn0 (fun st a => setIntensity st a 6) _
    (fun st a h0 hlt hst => setIntensity_emite n st a 6 h0 hlt (by omega) hst) _ h5
  obtain ⟨h7, e7⟩ := paraCada_enCero n hn0 (fun st a => shutdown st a false) _
    (fun st a h0 hlt hst => shutdown_emite n st a false h0 hlt hst) _ h6
  obtain ⟨h8, e8⟩ := paraCada_enCero n hn0 (fun st a => clearDisplay st a) _
    (fun st a h0 hlt hst => clearDisplay_emite n st a h0 hlt hst) _ h7
  refine ⟨h8, ?_⟩
  refine e8.trans ?_
  rw [e7, e6, e5, e4]
  simp [secuenciaInicio, List.append_assoc]

/-- C13: for every chain length n in 1..8, `begin` emits exactly this ordered sequence of
(module, opcode, value) bus writes and no others: per module i = 0..n-1 display test off
(i,15,0), scan limit (i,11,7), decode mode off (i,9,0) and the 8 row clears (i,1,0)..(i,8,0);
then power off (a,12,0) for every module, intensity (a,10,6) for every module, power on
(a,12,1) for every module, and the 8 row clears of every module; 22n writes in total, and
`status[0..63]` is all zero afterwards. -/
theorem begin_secuencia (s : Estado) (dataPin clkPin csPin n : Int) (hn : 1 ≤ n ∧ n ≤ 8) :
    (begin s dataPin clkPin csPin n).escrituras = s.escrituras ++ secuenciaInicio n.toNat
      ∧ ((secuenciaInicio n.toNat).length : Int) = 22 * n
      ∧ ∀ i : Int, 0 ≤ i → i < 64 → (begin s dataPin clkPin csPin n).status i = 0 := by
  obtain ⟨h1, h2⟩ := begin_emite s dataPin clkPin csPin n hn
  refine ⟨h2, ?_, h1.2⟩
  rw [secuenciaInicio_length]
  omega

/-- Witness of C13: one module; the 22 writes in full. -/
theorem begin_secuencia_witness :
    secuenciaInicio 1
        = [⟨0, 15, 0⟩, ⟨0, 11, 7⟩, ⟨0, 9, 0⟩,
            ⟨0, 1, 0⟩, ⟨0, 2, 0⟩, ⟨0, 3, 0⟩, ⟨0, 4, 0⟩, ⟨0, 5, 0⟩, ⟨0, 6, 0⟩, ⟨0, 7, 0⟩, ⟨0, 8, 0⟩,
            ⟨0, 12, 0⟩, ⟨0, 10, 6⟩, ⟨0, 12, 1⟩,
            ⟨0, 1, 0⟩, ⟨0, 2, 0⟩, ⟨0, 3, 0⟩, ⟨0, 4, 0⟩, ⟨0, 5, 0⟩, ⟨0, 6, 0⟩, ⟨0, 7, 0⟩, ⟨0, 8, 0⟩]
      ∧ ((begin (enBlanco 0 0) 12 11 10 1).escrituras
          = (enBlanco 0 0).escrituras ++ secuenciaInicio (1 : Int).toNat
        ∧ ((secuenciaInicio (1 : Int).toNat).length : Int) = 22 * 1
        ∧ ∀ i : Int, 0 ≤ i → i < 64 → (begin (enBlanco 0 0) 12 11 10 1).status i = 0) :=
  ⟨by decide, begin_secuencia (enBlanco 0 0) 12 11 10 1 (by decide)⟩

theorem beginPaso_maxDevices (st : Estado) (i : Int) :
    (beginPaso st i).maxDevices = st.maxDevices := by
  unfold beginPaso
  simp only
  rw [(preserva_clearDisplay i _).1, spiTransfer_maxDevices, (preserva_setScanLimit i 7 _).1,
    spiTransfer_maxDevices]

theorem paraCada_beginPaso_maxDevices (n : Int) (st : Estado) :
    (paraCada n beginPaso st).maxDevices = st.maxDevices := by
  unfold paraCada
  generalize List.range n.toNat = l
  induction l generalizing st with
  | nil => rfl
  | cons a l ih => rw [List.foldl_cons, ih, beginPaso_maxDevices]

/-- C14: for every integer `numDevices` passed to `begin`, the resulting chain length
(`getDeviceCount`) is `numDevices` itself when 1 <= numDevices <= 8 and 8 otherwise. -/
theorem begin_getDeviceCount (s : Estado) (dataPin clkPin csPin numDevices : Int) :
    getDeviceCount (begin s dataPin clkPin csPin numDevices)
      = if 1 ≤ numDevices ∧ numDevices ≤ 8 then numDevices else 8 := by
  unfold getDeviceCount begin
  simp only
  rw [(preserva_borrar _).1, (preserva_encender _).1, (preserva_setIntensidad 6 _).1,
    (preserva_apagar _).1, paraCada_beginPaso_maxDevices]
  show (if numDevices ≤ 0 ∨ numDevices > 8 then 8 else numDevices) = _
  split_ifs <;> omega

/-! ## Chip setters and the line-level frame -/

/-- C15: the chip setters range-check and drop invalid input. `setIntensity(addr, v)` emits
exactly one bus write (addr, 10, v) when 0 <= addr < moduleCount and 0 <= v <= 15 and none
otherwise; `setScanLimit(addr, l)` emits exactly one bus write (addr, 11, l) when
0 <= addr < moduleCount and 0 <= l <= 7 and none otherwise; `shutdown(addr, b)` emits nothing
for an invalid addr (and one write (addr, 12, 0 or 1) for a valid one); none of them changes
`status`. -/
theorem setters_validan (s : Estado) (addr v : Int) (b : Bool) :
    (setIntensity s addr v).escrituras
        = (if 0 ≤ addr ∧ addr < s.maxDevices ∧ 0 ≤ v ∧ v ≤ 15
            then s.escrituras ++ [⟨addr, 10, v.toNat⟩] else s.escrituras)
      ∧ (setScanLimit s addr v).escrituras
        = (if 0 ≤ addr ∧ addr < s.maxDevices ∧ 0 ≤ v ∧ v ≤ 7
            then s.escrituras ++ [⟨addr, 11, v.toNat⟩] else s.escrituras)
      ∧ (shutdown s addr b).escrituras
        = (if 0 ≤ addr ∧ addr < s.maxDevices
            then s.escrituras ++ [⟨addr, 12, if b then 0 else 1⟩] else s.escrituras)
      ∧ (setIntensity s addr v).status = s.status
      ∧ (setScanLimit s addr v).status = s.status
      ∧ (shutdown s addr b).status = s.status := by
  refine ⟨?_, ?_, ?_, ?_, ?_, ?_⟩
  · unfold setIntensity
    by_cases h1 : addr < 0 ∨ addr ≥ s.maxDevices
    · rw [if_pos h1, if_neg (by omega)]
    · rw [if_neg h1]
      by_cases h2 : v ≥ 0 ∧ v < 16
      · have hb : toByte v % 256 = v.toNat := by unfold toByte; omega
        rw [if_pos h2, if_pos (by omega), spiTransfer_escrituras, hb]
        rfl
      · rw [if_neg h2, if_neg (by omega)]
  · unfold setScanLimit
    by_cases h1 : addr < 0 ∨ addr ≥ s.maxDevices
    · rw [if_pos h1, if_neg (by omega)]
    · rw [if_neg h1]
      by_cases h2 : v ≥ 0 ∧ v < 8
      · have hb : toByte v % 256 = v.toNat := by unfold toByte; omega
        rw [if_pos h2, if_pos (by omega), spiTransfer_escrituras, hb]
        rfl
      · rw [if_neg h2, if_neg (by omega)]
  · unfold shutdown
    by_cases h1 : addr < 0 ∨ addr ≥ s.maxDevices
    · rw [if_pos h1, if_neg (by omega)]
    · have h2 : 0 ≤ addr ∧ addr < s.maxDevices := by omega
      rw [if_neg h1, if_pos h2]
      cases b <;> simp [OP_SHUTDOWN]
  · unfold setIntensity
    split_ifs <;> rfl
  · unfold setScanLimit
    split_ifs <;> rfl
  · unfold shutdown
    split_ifs <;> rfl

/-- C16: on a chain of n modules one bus write appends to the trace exactly: latch driven
low, then 2n bytes shifted out most-significant-bit-first on the data and clock lines, then
latch driven high; nothing else. -/
theorem spiTransfer_linea (s : Estado) (addr : Int) (opcode data : Nat) (hn : 0 ≤ s.maxDevices) :
    ((trama s addr opcode data).length : Int) = 2 * s.maxDevices
      ∧ (spiTransfer s addr opcode data).traza
        = s.traza ++ ([Evento.digitalWrite s.SPI_CS false]
            ++ (trama s addr opcode data).map (fun v => Evento.shiftOut s.SPI_MOSI s.SPI_CLK true v)
            ++ [Evento.digitalWrite s.SPI_CS true]) := by
  refine ⟨?_, ?_⟩
  · rw [trama_length]
    omega
  · unfold spiTransfer
    simp only [List.append_assoc]

/-- Witness of C16: module 1 of a chain of 3, opcode 10, value 6. -/
theorem spiTransfer_linea_witness :
    (spiTransfer (enBlanco 3 0) 1 10 6).traza
        = [Evento.digitalWrite 10 false, Evento.shiftOut 12 11 true 0,
            Evento.shiftOut 12 11 true 0, Evento.shiftOut 12 11 true 10,
            Evento.shiftOut 12 11 true 6, Evento.shiftOut 12 11 true 0,
            Evento.shiftOut 12 11 true 0, Evento.digitalWrite 10 true]
      ∧ (((trama (enBlanco 3 0) 1 10 6).length : Int) = 2 * (enBlanco 3 0).maxDevices
        ∧ (spiTransfer (enBlanco 3 0) 1 10 6).traza
          = (enBlanco 3 0).traza ++ ([Evento.digitalWrite (enBlanco 3 0).SPI_CS false]
              ++ (trama (enBlanco 3 0) 1 10 6).map
                  (fun v => Evento.shiftOut (enBlanco 3 0).SPI_MOSI (enBlanco 3 0).SPI_CLK true v)
              ++ [Evento.digitalWrite (enBlanco 3 0).SPI_CS true])) :=
  ⟨by decide, spiTransfer_linea (enBlanco 3 0) 1 10 6 (by decide)⟩

/-! ## Mount model 2 and the bit order of a row -/

theorem escribirBits_modelo_dos (s : Estado) (codigo : List Nat) (p : Int) (h : s.modelo = 2) :
    escribirBits s codigo p = s := by
  unfold escribirBits
  simp only
  rw [if_neg (by omega), if_neg (by omega)]

/-- C17, at the failing input: after `begin(12, 11, 10, 1)` and `setModelo(2)`, the call
`escribirCaracter('A', 0)` leaves the object as it was: no bus write, `status[0..63]` all
zero, although the mirrored glyph `rotarCodigo` computes is not blank. -/
theorem escribirCaracter_espejo_no_escribe :
    escribirCaracter entornoEjemplo (setModelo (begin (enBlanco 0 0) 12 11 10 1) 2) 65 0
        = setModelo (begin (enBlanco 0 0) 12 11 10 1) 2
      ∧ rotarCodigo 2 (obtenerBitsCaracter entornoEjemplo 65) = [52, 45, 38, 31, 24, 17, 10, 3]
      ∧ (∀ i : Int, 0 ≤ i → i < 64 →
          (escribirCaracter entornoEjemplo
            (setModelo (begin (enBlanco 0 0) 12 11 10 1) 2) 65 0).status i = 0) := by
  have h1 : escribirCaracter entornoEjemplo (setModelo (begin (enBlanco 0 0) 12 11 10 1) 2) 65 0
      = setModelo (begin (enBlanco 0 0) 12 11 10 1) 2 :=
    escribirBits_modelo_dos _ _ _ rfl
  refine ⟨h1, by decide, fun i h0 h64 => ?_⟩
  rw [h1]
  exact (begin_emite (enBlanco 0 0) 12 11 10 1 (by decide)).1.2 i h0 h64

theorem fila_setLed_cero (s : Estado) (m r c : Int)
    (hm : 0 ≤ m ∧ m < s.maxDevices) (hr : 0 ≤ r ∧ r ≤ 7) (hc : 0 ≤ c ∧ c ≤ 7)
    (h0 : s.status (m * 8 + r) = 0) :
    fila (setLed s m r c true) m r = 2 ^ (7 - c.toNat) := by
  unfold fila
  rw [setLed_status s m r c true hm hr hc, Function.update_same, h0]
  unfold filaTrasLed
  rw [if_pos rfl, mascara_eq c.toNat (by omega), Nat.zero_or]
  apply Nat.mod_eq_of_lt
  calc 2 ^ (7 - c.toNat) ≤ 2 ^ 7 := Nat.pow_le_pow_right (by norm_num) (by omega)
    _ < 256 := by norm_num

theorem led_setRow (s : Estado) (m r c : Int) (v : Nat)
    (hm : 0 ≤ m ∧ m < s.maxDevices) (hr : 0 ≤ r ∧ r ≤ 7) (hc : 0 ≤ c ∧ c ≤ 7) :
    led (setRow s m r v) m r c = v.testBit (7 - c.toNat) := by
  rw [led_eq_testBit _ m r c hc]
  unfold setRow
  rw [if_neg (by omega), if_neg (by omega)]
  simp only [spiTransfer_status, Function.update_same]
  rw [mod256_testBit]
  have : 7 - c.toNat < 8 := by omega
  simp [this]

/-- C18 (amended): in a row byte, bit 7-c is the state of the LED at column c. For every valid
(m,r,c), `setLed(m,r,c,true)` on an all-zero frame buffer leaves row r of module m equal to
the mask with only bit 7-c set (`B10000000 >> c`), and after `setRow(m,r,v)` the LED at column
c is on exactly when bit 7-c of v is 1. -/
theorem fila_bit_columna (s : Estado) (m r c : Int) (v : Nat)
    (hm : 0 ≤ m ∧ m < s.maxDevices) (hr : 0 ≤ r ∧ r ≤ 7) (hc : 0 ≤ c ∧ c ≤ 7)
    (h0 : ∀ i : Int, 0 ≤ i → i < 64 → s.status i = 0) (h8 : s.maxDevices ≤ 8) :
    fila (setLed s m r c true) m r = 1 <<< (7 - c.toNat)
      ∧ fila (setLed s m r c true) m r = 0x80 >>> c.toNat
      ∧ led (setRow s m r v) m r c = v.testBit (7 - c.toNat) := by
  have hf := fila_setLed_cero s m r c hm hr hc (h0 _ (by omega) (by omega))
  refine ⟨?_, ?_, led_setRow s m r c v hm hr hc⟩
  · rw [hf, Nat.one_shiftLeft]
  · rw [hf, ← mascara_eq c.toNat (by omega)]
    apply Nat.mod_eq_of_lt
    rw [Nat.shiftRight_eq_div_pow]
    exact lt_of_le_of_lt (Nat.div_le_self _ _) (by norm_num)

/-- Witness of C18 (amended): column 2 of row 3 of the single module of a blank chain. -/
theorem fila_bit_columna_witness :
    fila (setLed (enBlanco 1 0) 0 3 2 true) 0 3 = 1 <<< (7 - (2 : Int).toNat)
      ∧ fila (setLed (enBlanco 1 0) 0 3 2 true) 0 3 = 0x80 >>> (2 : Int).toNat
      ∧ led (setRow (enBlanco 1 0) 0 3 0x20) 0 3 2 = (0x20 : Nat).testBit (7 - (2 : Int).toNat) :=
  fila_bit_columna (enBlanco 1 0) 0 3 2 0x20 (by decide) (by decide) (by decide)
    (fun _ _ _ => rfl) (by decide)

/-- C18 as stated fails: on a blank module `setLed(0,0,0,true)` leaves row 0 equal to 128,
not to `1 << 0`, and after `setRow(0,0,1)` the LED at column 0 is off although bit 0 of the
value is 1. -/
theorem fila_bit_columna_contraejemplo :
    fila (setLed (enBlanco 1 0) 0 0 0 true) 0 0 = 128
      ∧ fila (setLed (enBlanco 1 0) 0 0 0 true) 0 0 ≠ 1 <<< (0 : Int).toNat
      ∧ led (setRow (enBlanco 1 0) 0 0 1) 0 0 0 = false
      ∧ (1 : Nat).testBit (0 : Int).toNat = true := by
  decide

/-! ## Compact placement -/

theorem escribirFraseCompacta_llamadas (e : Entorno) (s : Estado) (frase : List Int) (p : Int) :
    escribirFraseCompacta e s frase p
      = (llamadasCompacta frase p).foldl (fun st cp => escribirCaracter e st cp.1 cp.2) s := by
  unfold escribirFraseCompacta llamadasCompacta
  simp only [List.foldl_cons, List.foldl_map]

theorem escribirFrase_llamadas (e : Entorno) (s : Estado) (frase : List Int) (p : Int) :
    escribirFrase e s frase p
      = (llamadasFrase frase p).foldl (fun st cp => escribirCaracter e st cp.1 cp.2) s := by
  unfold escribirFrase llamadasFrase
  simp only [List.foldl_map]

theorem llamadasCompacta_length (frase : List Int) (p : Int) :
    (llamadasCompacta frase p).length = (frase.length - 1) + 1 := by
  simp [llamadasCompacta]

theorem posicionDe_compacta_cero (frase : List Int) (p : Int) :
    posicionDe (llamadasCompacta frase p) 0 = p - 1 := rfl

theorem posicionDe_compacta (frase : List Int) (p : Int) (i : Nat)
    (hi : 1 ≤ i ∧ i < frase.length) :
    posicionDe (llamadasCompacta frase p) i = p + 6 * (i : Int) := by
  obtain ⟨j, rfl⟩ : ∃ j, i = j + 1 := ⟨i - 1, by omega⟩
  unfold posicionDe llamadasCompacta
  rw [List.getD_cons_succ, List.getD_eq_getElem _ _ (by simp; omega)]
  simp only [List.getElem_map, List.getElem_range]
  push_cast
  ring

theorem escribirFraseCompacta_tres (e : Entorno) (s : Estado) (a b c p : Int) :
    escribirFraseCompacta e s [a, b, c] p
      = escribirCaracter e (escribirCaracter e (escribirCaracter e s a (p - 1)) b
          (((1 : Nat) : Int) * 8 - ((1 : Nat) : Int) * 2 + p)) c
          (((2 : Nat) : Int) * 8 - ((2 : Nat) : Int) * 2 + p) := rfl

/-- C19, at the failing input: `escribirFraseCompacta("ABC", 0)` places `A` at -1, `B` at 6
and `C` at 12. Glyph 1 starts 7 columns after glyph 0, but glyph 2 starts 6 columns after
glyph 1, not 7: the two overlap in two columns, not in the last column only. -/
theorem escribirFraseCompacta_paso :
    llamadasCompacta [65, 66, 67] 0 = [(65, -1), (66, 6), (67, 12)]
      ∧ escribirFraseCompacta entornoEjemplo (enBlanco 2 1) [65, 66, 67] 0
          = escribirCaracter entornoEjemplo
              (escribirCaracter entornoEjemplo
                (escribirCaracter entornoEjemplo (enBlanco 2 1) 65 (-1)) 66 6) 67 12
      ∧ posicionDe (llamadasCompacta [65, 66, 67] 0) 1
          = posicionDe (llamadasCompacta [65, 66, 67] 0) 0 + 7
      ∧ posicionDe (llamadasCompacta [65, 66, 67] 0) 2
          = posicionDe (llamadasCompacta [65, 66, 67] 0) 1 + 6
      ∧ posicionDe (llamadasCompacta [65, 66, 67] 0) 2
          ≠ posicionDe (llamadasCompacta [65, 66, 67] 0) 1 + 7 := by
  refine ⟨by decide, ?_, by decide, by decide, by decide⟩
  rw [escribirFraseCompacta_tres]
  norm_num

theorem escribirFraseCompacta_nil (e : Entorno) (s : Estado) (p : Int) :
    escribirFraseCompacta e s [] p = escribirBits s asterisco (p - 1) := rfl

theorem led_compacta_vacia :
    led (escribirFraseCompacta entornoEjemplo (enBlanco 1 1) [] 1) 0 3 4 = true := by
  have h := escribirBits_alineado (enBlanco 1 1) asterisco 0 (by decide) (Or.inr rfl) 3 4
      (by decide) (by decide)
  simp only [Nat.cast_zero] at h
  rw [escribirFraseCompacta_nil, show ((1 : Int) - 1) = 0 * 8 + 0 from by norm_num, h]
  decide

/-- C20: for every start position, `escribirFraseCompacta` called with the empty text makes
exactly one placement, of the glyph looked up for the string terminator (the fallback
pattern), at position start - 1, whereas `escribirFrase` with the empty text makes none and
leaves the object as it was; on a blank module under model 1, the compact call at start 1
lights the LED at row 3, column 4. -/
theorem escribirFraseCompacta_vacia (e : Entorno) (s : Estado) (p : Int) :
    llamadasCompacta [] p = [(0, p - 1)]
      ∧ escribirFraseCompacta e s [] p = escribirCaracter e s 0 (p - 1)
      ∧ obtenerBitsCaracter e 0 = [0x00, 0x08, 0x2A, 0x1C, 0x77, 0x1C, 0x2A, 0x08]
      ∧ escribirFraseCompacta e s [] p
          = escribirBits s [0x00, 0x08, 0x2A, 0x1C, 0x77, 0x1C, 0x2A, 0x08] (p - 1)
      ∧ llamadasFrase [] p = []
      ∧ escribirFrase e s [] p = s
      ∧ led (escribirFraseCompacta entornoEjemplo (enBlanco 1 1) [] 1) 0 3 4 = true
      ∧ led (escribirFrase entornoEjemplo (enBlanco 1 1) [] 1) 0 3 4 = false := by
  exact ⟨rfl, rfl, rfl, rfl, rfl, rfl, led_compacta_vacia, by decide⟩

/-! ## The state invariant over sequences of public calls -/

theorem begin_maxDevices (s : Estado) (dataPin clkPin csPin numDevices : Int) :
    (begin s dataPin clkPin csPin numDevices).maxDevices
      = if numDevices ≤ 0 ∨ numDevices > 8 then 8 else numDevices := by
  unfold begin
  simp only
  rw [(preserva_borrar _).1, (preserva_encender _).1, (preserva_setIntensidad 6 _).1,
    (preserva_apagar _).1, paraCada_beginPaso_maxDevices]

theorem ejecutar_paso (e : Entorno) (s : Estado) (op : Operacion)
    (hc : cabe e s.maxDevices op = true) (h : Coherente (fun _ _ => True) s) :
    ∃ s1, ejecutar e s op = some s1 ∧ s1.maxDevices = longitudTras s.maxDevices op
      ∧ Coherente (fun _ _ => True) s1 := by
  cases op with
  | begin d c l n => exact ⟨_, rfl, begin_maxDevices s d c l n, begin_establece s d c l n⟩
  | setModelo m => exact ⟨_, rfl, (preserva_setModelo m s).1, (preserva_setModelo m s).2 _ h⟩
  | borrar => exact ⟨_, rfl, (preserva_borrar s).1, (preserva_borrar s).2 _ h⟩
  | setIntensidad v =>
    exact ⟨_, rfl, (preserva_setIntensidad v s).1, (preserva_setIntensidad v s).2 _ h⟩
  | apagar => exact ⟨_, rfl, (preserva_apagar s).1, (preserva_apagar s).2 _ h⟩
  | encender => exact ⟨_, rfl, (preserva_encender s).1, (preserva_encender s).2 _ h⟩
  | escribirFraseScroll f p =>
    exact ⟨_, rfl, (preserva_escribirFraseScroll e f p s).1,
      (preserva_escribirFraseScroll e f p s).2 _ h⟩
  | escribirFraseCompactaScroll f p =>
    exact ⟨_, rfl, (preserva_escribirFraseCompactaScroll e f p s).1,
      (preserva_escribirFraseCompactaScroll e f p s).2 _ h⟩
  | escribirCifra c p =>
    have hfit : ((e.dtostrf c s.maxDevices 0).length : Int) + 1 ≤ s.maxDevices + 1 :=
      of_decide_eq_true hc
    have hrun : escribirCifra e s c p
        = some (escribirFrase e s (e.dtostrf c s.maxDevices 0) p) := by
      unfold escribirCifra
      simp only
      rw [if_pos hfit]
    exact ⟨_, hrun, (preserva_escribirCifra e s _ c p hrun).1,
      (preserva_escribirCifra e s _ c p hrun).2 _ h⟩
  | escribirFrase f p =>
    exact ⟨_, rfl, (preserva_escribirFrase e f p s).1, (preserva_escribirFrase e f p s).2 _ h⟩
  | escribirFraseCompacta f p =>
    exact ⟨_, rfl, (preserva_escribirFraseCompacta e f p s).1,
      (preserva_escribirFraseCompacta e f p s).2 _ h⟩
  | escribirCaracter c p =>
    exact ⟨_, rfl, (preserva_escribirCaracter e c p s).1,
      (preserva_escribirCaracter e c p s).2 _ h⟩
  | escribirBits c p =>
    exact ⟨_, rfl, (preserva_escribirBits c p s).1, (preserva_escribirBits c p s).2 _ h⟩
  | shutdown a b => exact ⟨_, rfl, (preserva_shutdown a b s).1, (preserva_shutdown a b s).2 _ h⟩
  | setScanLimit a l =>
    exact ⟨_, rfl, (preserva_setScanLimit a l s).1, (preserva_setScanLimit a l s).2 _ h⟩
  | setIntensity a v =>
    exact ⟨_, rfl, (preserva_setIntensity a v s).1, (preserva_setIntensity a v s).2 _ h⟩
  | clearDisplay a =>
    exact ⟨_, rfl, (preserva_clearDisplay a s).1, (preserva_clearDisplay a s).2 _ h⟩
  | setLed a r c st =>
    exact ⟨_, rfl, (preserva_setLed a r c st s).1, (preserva_setLed a r c st s).2 _ h⟩
  | setRow a r v => exact ⟨_, rfl, (preserva_setRow a r v s).1, (preserva_setRow a r v s).2 _ h⟩
  | setColumn a c v =>
    exact ⟨_, rfl, (preserva_setColumn a c v s).1, (preserva_setColumn a c v s).2 _ h⟩

theorem ejecutar_desborda (e : Entorno) (s : Estado) (op : Operacion)
    (hc : cabe e s.maxDevices op = false) : ejecutar e s op = none := by
  cases op with
  | escribirCifra c p =>
    have hfit : ¬ ((e.dtostrf c s.maxDevices 0).length : Int) + 1 ≤ s.maxDevices + 1 :=
      of_decide_eq_false hc
    show escribirCifra e s c p = none
    unfold escribirCifra
    simp only
    rw [if_neg hfit]
  | _ => exact absurd hc (by simp [cabe])

theorem ejecutarTodas_desborda (e : Entorno) (ops : List Operacion) :
    ∀ s : Estado, Coherente (fun _ _ => True) s → cifrasCaben e s.maxDevices ops = false →
      ejecutarTodas e s ops = none := by
  induction ops with
  | nil => intro s _ hc; exact absurd hc (by simp [cifrasCaben])
  | cons op ops ih =>
    intro s h hc
    unfold ejecutarTodas
    cases hop : cabe e s.maxDevices op with
    | false => rw [ejecutar_desborda e s op hop]
    | true =>
      obtain ⟨s1, hrun, hn, h1⟩ := ejecutar_paso e s op hop h
      rw [hrun]
      refine ih s1 h1 ?_
      unfold cifrasCaben at hc
      rw [hop, Bool.true_and] at hc
      rw [hn]
      exact hc

theorem escribirCifra_desborda_ejemplo :
    ejecutarTodas entornoCifras (begin (enBlanco 0 0) 12 11 10 1)
      [Operacion.escribirCifra 12345 0] = none :=
  ejecutarTodas_desborda entornoCifras _ _ (begin_establece (enBlanco 0 0) 12 11 10 1)
    (by rw [begin_maxDevices]; decide)

end MatrizLed
